import Mathlib

namespace Lagoon

/-!
Shallow embedding of `src/services/api/src/migrations/1-rbac/projects.ts`.

The migration script drives a per-project loop against two stores: the
relational database (projects, customers, users, project_user, ssh_key,
user_ssh_key) and the identity provider (groups, users, memberships).
External collaborators (sshpk, the Group/User models, the SQL helpers) are
embedded through their contracts; each operation carries an explicit failure
switch in `Env` so that the error-handling structure of the script can be
examined for arbitrary failures, and `Env.genKey` supplies the stream of
freshly generated Ed25519 keys.
-/

/-- Serialized private-key text as stored in the `private_key` column.  The
sshpk contract is abstracted: a text is either the serialization of a private
key (identified by a natural number) or malformed. -/
inductive PrivText where
  | wellFormed (k : Nat)
  | malformed (s : String)
deriving DecidableEq, Repr

/-- sshpk `parsePrivateKey`: succeeds exactly on serialized private keys. -/
def parsePrivateKey : PrivText → Except String Nat
  | .wellFormed k => Except.ok k
  | .malformed s => Except.error ("could not parse " ++ s)

/-- `privateKey.toString('openssh')`. -/
def serializePriv (k : Nat) : PrivText := PrivText.wellFormed k

/-- `privateKey.toPublic()`. -/
def toPublic (k : Nat) : Nat := k

/-- `publicKey.toString()`: a key-type word and a value part, joined by a
space in the textual form (`keyPair.public.split(' ')` recovers the parts). -/
structure PubText where
  keyType : String
  keyValue : Nat
deriving DecidableEq, Repr

def pubToString (pk : Nat) : PubText :=
  { keyType := "ssh-ed25519", keyValue := pk }

/-- `getSshKeyFingerprint` over the serialized public key: a deterministic
digest of the key value. -/
def getSshKeyFingerprint (p : PubText) : Nat := p.keyValue

/-- `R.isEmpty` on the stored column value (true exactly on the empty
string). -/
def PrivText.isEmptyText : PrivText → Bool
  | .malformed s => s == ""
  | .wellFormed _ => false

/-- JS truthiness of `project.privateKey` (line 148): absent and the empty
string are falsy, every other text is truthy. -/
def jsTruthy : Option PrivText → Bool
  | none => false
  | some t => !t.isEmptyText

/-- Line 130: `R.replace(/\n/g, '\n', s)` at the character level of the
serialized key text — each newline character is replaced by a newline
character. -/
def normalizeNewlines (s : List Char) : List Char :=
  s.map (fun c => if c = '\n' then '\n' else c)

/-! ## Relational rows -/

structure ProjectRow where
  id : Nat
  name : String
  customer : Nat
  privateKey : Option PrivText
deriving DecidableEq, Repr

structure CustomerRow where
  id : Nat
  privateKey : Option PrivText
deriving DecidableEq, Repr

structure DbUserRow where
  id : Nat
  email : Option String
deriving DecidableEq, Repr

structure ProjectUserRow where
  pid : Nat
  usid : Nat
deriving DecidableEq, Repr

structure SshKeyRow where
  id : Nat
  keyName : String
  keyType : String
  keyValue : Nat
  keyFingerprint : Nat
deriving DecidableEq, Repr

structure UserSshKeyRow where
  usid : Nat
  skid : Nat
deriving DecidableEq, Repr

structure DB where
  projects : List ProjectRow
  customers : List CustomerRow
  users : List DbUserRow
  projectUsers : List ProjectUserRow
  sshKeys : List SshKeyRow
  userSshKeys : List UserSshKeyRow
  nextSshKeyId : Nat
deriving DecidableEq, Repr

/-! ## Identity-provider state -/

inductive Role where
  | owner
  | guest
deriving DecidableEq, Repr

/-- Keycloak group attributes: a JS object of string keys to value lists. -/
abbrev Attrs := List (String × List String)

structure KCGroup where
  id : Nat
  name : String
  attributes : Attrs
deriving DecidableEq, Repr

structure KCUser where
  id : Nat
  username : String
  email : String
  comment : String
deriving DecidableEq, Repr

structure KC where
  groups : List KCGroup
  users : List KCUser
  memberships : List (Nat × Nat × Role)
  nextGroupId : Nat
  nextUserId : Nat
deriving DecidableEq, Repr

/-- Whole machine state: both stores, the generation counter for fresh key
material, and the log written by `logger`. -/
structure St where
  db : DB
  kc : KC
  genCounter : Nat
  log : List String
deriving DecidableEq, Repr

/-- Failure switches for every external call, plus the stream of generated
private keys.  A `true` switch makes the corresponding call throw. -/
structure Env where
  loadGroupFails : String → Bool
  updateGroupFails : Nat → Bool
  addGroupFails : String → Bool
  loadUserByUsernameFails : String → Bool
  addUserToGroupFails : Nat → Nat → Role → Bool
  addUserFails : String → Bool
  loadUserByIdFails : Nat → Bool
  projectUserQueryFails : Nat → Bool
  writeBackFails : Nat → Bool
  fingerprintQueryFails : Nat → Bool
  insertSshKeyFails : Nat → Bool
  addSshKeyToUserFails : Nat → Nat → Bool
  genKey : Nat → Nat

/-- Thrown errors.  `groupNotFound` embeds `GroupNotFoundError`, the one class
the script distinguishes with instanceof (line 71). -/
inductive MErr where
  | groupNotFound (msg : String)
  | userNotFound (msg : String)
  | generic (msg : String)
deriving DecidableEq, Repr

def MErr.message : MErr → String
  | .groupNotFound m => m
  | .userNotFound m => m
  | .generic m => m

def logLine (st : St) (s : String) : St :=
  { st with log := st.log ++ [s] }

/-! ## Identity-provider operations (Group and User models) -/

def loadGroupByName (env : Env) (st : St) (gname : String) : Except MErr KCGroup :=
  if env.loadGroupFails gname then Except.error (MErr.generic "group load failed")
  else
    match st.kc.groups.find? (fun g => g.name == gname) with
    | some g => Except.ok g
    | none => Except.error (MErr.groupNotFound ("Group not found: " ++ gname))

def updateGroup (env : Env) (st : St) (gid : Nat) (gname : String) (attrs : Attrs) :
    Except MErr (KCGroup × St) :=
  if env.updateGroupFails gid then Except.error (MErr.generic "group update failed")
  else
    Except.ok ({ id := gid, name := gname, attributes := attrs },
      { st with kc := { st.kc with
          groups := st.kc.groups.map (fun g =>
            if g.id == gid then { g with name := gname, attributes := attrs } else g) } })

def addGroup (env : Env) (st : St) (gname : String) (attrs : Attrs) :
    Except MErr (KCGroup × St) :=
  if env.addGroupFails gname then Except.error (MErr.generic "group add failed")
  else
    let g : KCGroup := { id := st.kc.nextGroupId, name := gname, attributes := attrs }
    Except.ok (g, { st with kc := { st.kc with
      groups := st.kc.groups ++ [g],
      nextGroupId := st.kc.nextGroupId + 1 } })

def loadUserByUsername (env : Env) (st : St) (uname? : Option String) : Except MErr KCUser :=
  match uname? with
  | none => Except.error (MErr.userNotFound "undefined")
  | some uname =>
    if env.loadUserByUsernameFails uname then Except.error (MErr.generic "user load failed")
    else
      match st.kc.users.find? (fun u => u.username == uname) with
      | some u => Except.ok u
      | none => Except.error (MErr.userNotFound ("User not found: " ++ uname))

def loadUserById (env : Env) (st : St) (uid : Nat) : Except MErr KCUser :=
  if env.loadUserByIdFails uid then Except.error (MErr.generic "user load failed")
  else
    match st.kc.users.find? (fun u => u.id == uid) with
    | some u => Except.ok u
    | none => Except.error (MErr.generic ("User not found by id: " ++ Nat.repr uid))

def addUser (env : Env) (st : St) (uname email comment : String) :
    Except MErr (KCUser × St) :=
  if env.addUserFails uname then Except.error (MErr.generic "user add failed")
  else if st.kc.users.any (fun u => u.username == uname) then
    Except.error (MErr.generic "user already exists")
  else
    let u : KCUser := { id := st.kc.nextUserId, username := uname, email := email, comment := comment }
    Except.ok (u, { st with kc := { st.kc with
      users := st.kc.users ++ [u],
      nextUserId := st.kc.nextUserId + 1 } })

/-- `GroupModel.addUserToGroup(user, group, role)`.  Keycloak's member add is
idempotent: an already-present membership is left alone.  Calling with an
undefined user or group throws. -/
def addUserToGroup (env : Env) (st : St) (user? : Option KCUser) (group? : Option KCGroup)
    (role : Role) : Except MErr St :=
  match user?, group? with
  | some u, some g =>
    if env.addUserToGroupFails u.id g.id role then
      Except.error (MErr.generic "member add failed")
    else if (u.id, g.id, role) ∈ st.kc.memberships then Except.ok st
    else Except.ok { st with kc := { st.kc with
      memberships := st.kc.memberships ++ [(u.id, g.id, role)] } }
  | _, _ => Except.error (MErr.generic "invalid user or group")

/-! ## Relational-store operations -/

/-- Lines 94-103: `SELECT u.email FROM project_user pu LEFT JOIN user u ON
pu.usid = u.id WHERE pu.pid = :pid` — a missing user row yields a NULL
email. -/
def projectUserEmails (db : DB) (pid : Nat) : List (Option String) :=
  (db.projectUsers.filter (fun pu => pu.pid == pid)).map
    (fun pu => (db.users.find? (fun u => u.id == pu.usid)).bind (fun u => u.email))

/-- Line 163-167: the key-fingerprint index query; `R.path([0,'usid'])` takes
the first row's usid. -/
def selectUserIdsBySshKeyFingerprint (db : DB) (fp : Nat) : Option Nat :=
  (db.userSshKeys.find? (fun l =>
    (db.sshKeys.find? (fun k => k.id == l.skid)).any
      (fun k => k.keyFingerprint == fp))).map (fun l => l.usid)

/-- Lines 180-191: insert a new ssh_key row, returning `insertId`. -/
def insertSshKey (env : Env) (st : St) (keyType : String) (keyValue fp : Nat) :
    Except MErr (Nat × St) :=
  if env.insertSshKeyFails fp then Except.error (MErr.generic "sql error: insert key")
  else
    let kid := st.db.nextSshKeyId
    Except.ok (kid, { st with db := { st.db with
      sshKeys := st.db.sshKeys ++
        [{ id := kid, keyName := "auto-add via migration", keyType := keyType,
           keyValue := keyValue, keyFingerprint := fp }],
      nextSshKeyId := kid + 1 } })

/-- Lines 192-195: link a key row to a user. -/
def addSshKeyToUser (env : Env) (st : St) (skid uid : Nat) : Except MErr St :=
  if env.addSshKeyToUserFails skid uid then Except.error (MErr.generic "sql error: link key")
  else
    Except.ok { st with db := { st.db with
      userSshKeys := st.db.userSshKeys ++ [{ usid := uid, skid := skid }] } }

/-! ## The four phases of one loop iteration -/

def generatePrivateKeyEd25519 (env : Env) (c : Nat) : Nat := env.genKey c

/-- Lines 118-132: `R.cond([[R.isNil, gen], [R.isEmpty, gen], [R.T, parse]])`
on the stored field, then `toPublic` and serialization (`R.replace` of a
newline by a newline on the private text is the identity, see
`normalizeNewlines`). -/
def resolveKeyPair (env : Env) (st : St) (pk? : Option PrivText) :
    Except MErr ((PrivText × PubText) × St) :=
  match pk? with
  | none =>
    let k := generatePrivateKeyEd25519 env st.genCounter
    Except.ok ((serializePriv k, pubToString (toPublic k)),
      { st with genCounter := st.genCounter + 1 })
  | some t =>
    if t.isEmptyText then
      let k := generatePrivateKeyEd25519 env st.genCounter
      Except.ok ((serializePriv k, pubToString (toPublic k)),
        { st with genCounter := st.genCounter + 1 })
    else
      match parsePrivateKey t with
      | Except.ok k => Except.ok ((serializePriv k, pubToString (toPublic k)), st)
      | Except.error e => Except.error (MErr.generic e)

/-- JS object update: overwrite the key when present, append otherwise. -/
def setAttr (m : Attrs) (k : String) (v : List String) : Attrs :=
  if m.any (fun kv => kv.1 == k) then
    m.map (fun kv => if kv.1 == k then (k, v) else kv)
  else m ++ [(k, v)]

def getAttr (m : Attrs) (k : String) : Option (List String) :=
  (m.find? (fun kv => kv.1 == k)).map (fun kv => kv.2)

/-- Lines 64-68: spread of the existing attributes with the two new entries
(`type` and `lagoon-projects` win, the rest is kept). -/
def mergedAttrs (old : Attrs) (pid : Nat) : Attrs :=
  setAttr (setAttr old "type" ["project-default-group"]) "lagoon-projects" [Nat.repr pid]

/-- Lines 75-78: the attribute object of a freshly created group. -/
def freshAttrs (pid : Nat) : Attrs :=
  [("type", ["project-default-group"]), ("lagoon-projects", [Nat.repr pid])]

/-- Line 57: the deterministic group name derived from the project name. -/
def projectGroupNameOf (p : ProjectRow) : String := "project-" ++ p.name

/-- Lines 56-91: load-or-create the project group.  Second component `none`
means the loop does `continue` (only the addGroup catch); `some none` means
the code falls through with `keycloakGroup` left undefined (the generic
load/update catch branch has no `continue`). -/
def groupStep (env : Env) (p : ProjectRow) (st : St) : St × Option (Option KCGroup) :=
  match loadGroupByName env st (projectGroupNameOf p) with
  | Except.ok existing =>
    match updateGroup env st existing.id existing.name (mergedAttrs existing.attributes p.id) with
    | Except.ok (g, st') => (st', some (some g))
    | Except.error e =>
      (logLine st ("Could not update group " ++ projectGroupNameOf p ++ ": " ++ e.message),
        some none)
  | Except.error (MErr.groupNotFound _) =>
    match addGroup env st (projectGroupNameOf p) (freshAttrs p.id) with
    | Except.ok (g, st') => (st', some (some g))
    | Except.error e =>
      (logLine st ("Could not add group " ++ projectGroupNameOf p ++ ": " ++ e.message), none)
  | Except.error e =>
    (logLine st ("Could not update group " ++ projectGroupNameOf p ++ ": " ++ e.message),
      some none)

def emailText : Option String → String
  | some e => e
  | none => "undefined"

/-- Lines 105-116: one project user.  The catch handler's log template reads
`keycloakGroup.name`, which itself throws when the group is undefined. -/
def addProjectUser (env : Env) (group? : Option KCGroup) (email? : Option String)
    (st : St) : Except MErr St :=
  let attempt :=
    match loadUserByUsername env st email? with
    | Except.ok u => addUserToGroup env st (some u) group? Role.owner
    | Except.error e => Except.error e
  match attempt with
  | Except.ok st' => Except.ok st'
  | Except.error e =>
    match group? with
    | some g =>
      Except.ok (logLine st ("Could not add user (" ++ emailText email? ++ ") to group (" ++
        g.name ++ "): " ++ e.message))
    | none => Except.error (MErr.generic "TypeError: cannot read name of undefined")

/-- The loop of lines 105-116 over all project-user rows. -/
def ownerPhase (env : Env) (group? : Option KCGroup) :
    List (Option String) → St → Except MErr St
  | [], st => Except.ok st
  | e :: es, st =>
    match addProjectUser env group? e st with
    | Except.ok st' => ownerPhase env group? es st'
    | Except.error err => Except.error err

/-- Lines 162-206: find-or-create the default identity.  The fingerprint
lookup precedes any creation; inside the creation catch, `user` keeps the
value assigned by `addUser` when a later step throws. -/
def identityStep (env : Env) (p : ProjectRow) (pub : PubText) (st : St) :
    Except MErr (Option KCUser × St) :=
  if env.fingerprintQueryFails (getSshKeyFingerprint pub) then
    Except.error (MErr.generic "sql error: fingerprint lookup")
  else
    match selectUserIdsBySshKeyFingerprint st.db (getSshKeyFingerprint pub) with
    | some userId =>
      match loadUserById env st userId with
      | Except.ok u => Except.ok (some u, st)
      | Except.error e => Except.error e
    | none =>
      match addUser env st ("default-user@" ++ p.name) ("default-user@" ++ p.name)
          ("autogenerated user for project " ++ p.name) with
      | Except.error e =>
        Except.ok (none, logLine st
          ("Could not create default project user for " ++ p.name ++ ": " ++ e.message))
      | Except.ok (u, st1) =>
        match insertSshKey env st1 pub.keyType pub.keyValue (getSshKeyFingerprint pub) with
        | Except.error e =>
          Except.ok (some u, logLine st1
            ("Could not create default project user for " ++ p.name ++ ": " ++ e.message))
        | Except.ok (insertId, st2) =>
          match addSshKeyToUser env st2 insertId u.id with
          | Except.error e =>
            Except.ok (some u, logLine st2
              ("Could not create default project user for " ++ p.name ++ ": " ++ e.message))
          | Except.ok st3 => Except.ok (some u, st3)

/-- Lines 208-217: add the default identity as guest; the catch logs with the
project name only and the loop proceeds (the source's log text keeps the
original wording). -/
def guestStep (env : Env) (p : ProjectRow) (user? : Option KCUser)
    (group? : Option KCGroup) (st : St) : St :=
  match addUserToGroup env st user? group? Role.guest with
  | Except.ok st' => st'
  | Except.error e =>
    logLine st ("Could not link user to default projet group for " ++ p.name ++ ": " ++
      e.message)

def identityAndGuest (env : Env) (p : ProjectRow) (group? : Option KCGroup)
    (pub : PubText) (st : St) : Except MErr St :=
  match identityStep env p pub st with
  | Except.error e => Except.error e
  | Except.ok (user?, st') => Except.ok (guestStep env p user? group? st')

/-- Lines 147-160: `UPDATE project p SET private_key = :pkey WHERE id = :pid`. -/
def writeBackRows (rows : List ProjectRow) (pid : Nat) (t : PrivText) : List ProjectRow :=
  rows.map (fun r => if r.id == pid then { r with privateKey := some t } else r)

/-- Lines 53-218: one iteration of the project loop.  An `Except.error` result
is a failure that escapes the iteration (and hence the whole loop). -/
def processProject (env : Env) (p : ProjectRow) (st0 : St) : Except MErr St :=
  match groupStep env p (logLine st0 ("Processing " ++ p.name)) with
  | (st, none) => Except.ok st
  | (st, some group?) =>
    if env.projectUserQueryFails p.id then
      Except.error (MErr.generic "sql error: project users")
    else
      match ownerPhase env group? (projectUserEmails st.db p.id) st with
      | Except.error e => Except.error e
      | Except.ok st1 =>
        match resolveKeyPair env st1 p.privateKey with
        | Except.error e =>
          Except.ok (logLine
            (logLine st1 ("There was an error with the project (" ++ p.name ++
              ") privateKey: " ++ e.message))
            ("Skipping adding default user with associated project public key for project " ++
              p.name))
        | Except.ok ((priv, pub), st2) =>
          if jsTruthy p.privateKey then identityAndGuest env p group? pub st2
          else if env.writeBackFails p.id then
            Except.error (MErr.generic "sql error: key write back")
          else
            identityAndGuest env p group? pub
              { st2 with db := { st2.db with
                  projects := writeBackRows st2.db.projects p.id priv } }

def runLoop (env : Env) : List ProjectRow → St → Except MErr St
  | [], st => Except.ok st
  | p :: ps, st =>
    match processProject env p st with
    | Except.ok st' => runLoop env ps st'
    | Except.error e => Except.error e

/-- Lines 39-46: `UPDATE project p INNER JOIN customer c ON p.customer = c.id
SET p.private_key = c.private_key WHERE p.private_key IS NULL`. -/
def backfillCustomerKeys (db : DB) : DB :=
  { db with projects := db.projects.map (fun p =>
      if p.privateKey = none then
        match db.customers.find? (fun c => c.id == p.customer) with
        | some c => { p with privateKey := c.privateKey }
        | none => p
      else p) }

/-- Lines 32-223: the whole migration body (authentication and client setup
are collaborator bootstrapping outside the modeled stores).  The project
snapshot is taken once, before the loop, as in line 51. -/
def runMigration (env : Env) (st : St) : Except MErr St :=
  let st1 := { st with db := backfillCustomerKeys st.db }
  let projectRecords := st1.db.projects
  match runLoop env projectRecords st1 with
  | Except.ok st' => Except.ok (logLine st' "Migration completed")
  | Except.error e => Except.error e

/-! ## Decidability of run results -/

instance : DecidableEq (Except MErr St) := fun a b =>
  match a, b with
  | Except.ok x, Except.ok y =>
    if h : x = y then Decidable.isTrue (congrArg Except.ok h)
    else Decidable.isFalse (fun hc => h (Except.ok.inj hc))
  | Except.error x, Except.error y =>
    if h : x = y then Decidable.isTrue (congrArg Except.error h)
    else Decidable.isFalse (fun hc => h (Except.error.inj hc))
  | Except.ok _, Except.error _ => Decidable.isFalse (fun hc => Except.noConfusion hc)
  | Except.error _, Except.ok _ => Decidable.isFalse (fun hc => Except.noConfusion hc)

/-! ## List helpers -/

theorem map_id_of_mem {α : Type} (l : List α) (f : α → α) (h : ∀ a ∈ l, f a = a) :
    l.map f = l := by
  induction l with
  | nil => rfl
  | cons a t ih =>
    simp only [List.map_cons, h a (List.mem_cons_self a t),
      ih (fun b hb => h b (List.mem_cons_of_mem a hb))]

theorem find?_map_pred {α : Type} (l : List α) (f : α → α) (p : α → Bool)
    (h : ∀ a ∈ l, p (f a) = p a) : (l.map f).find? p = (l.find? p).map f := by
  induction l with
  | nil => rfl
  | cons a t ih =>
    simp only [List.map_cons, List.find?_cons]
    rw [h a (List.mem_cons_self a t)]
    cases hp : p a with
    | true => rfl
    | false => exact ih (fun b hb => h b (List.mem_cons_of_mem a hb))

theorem find?_append_some {α : Type} {l₁ : List α} (l₂ : List α) {p : α → Bool} {a : α}
    (h : l₁.find? p = some a) : (l₁ ++ l₂).find? p = some a := by
  rw [List.find?_append, h]; rfl

theorem find?_append_none {α : Type} {l₁ : List α} (l₂ : List α) {p : α → Bool}
    (h : l₁.find? p = none) : (l₁ ++ l₂).find? p = l₂.find? p := by
  rw [List.find?_append, h]; rfl

/-! ## Attribute-merge lemmas -/

theorem find?_overwrite_of_any (m : Attrs) (k : String) (v : List String)
    (h : m.any (fun kv => kv.1 == k) = true) :
    (m.map (fun kv => if kv.1 == k then (k, v) else kv)).find? (fun kv => kv.1 == k) =
      some (k, v) := by
  induction m with
  | nil => simp at h
  | cons a t ih =>
    rw [List.map_cons]
    by_cases ha : a.1 = k
    · have hb : (a.1 == k) = true := by simpa using ha
      rw [List.find?_cons_of_pos _ (by simp [hb])]
      simp [hb]
    · have hb : (a.1 == k) = false := beq_eq_false_iff_ne.mpr ha
      simp only [List.any_cons, hb, Bool.false_or] at h
      rw [List.find?_cons_of_neg _ (by simp [hb])]
      exact ih h

theorem getAttr_overwrite_of_any (m : Attrs) (k : String) (v : List String)
    (h : m.any (fun kv => kv.1 == k) = true) :
    getAttr (m.map (fun kv => if kv.1 == k then (k, v) else kv)) k = some v := by
  unfold getAttr
  rw [find?_overwrite_of_any m k v h]
  rfl

theorem find?_none_of_not_any (m : Attrs) (k : String)
    (h : m.any (fun kv => kv.1 == k) = false) :
    m.find? (fun kv => kv.1 == k) = none := by
  rw [List.find?_eq_none]
  intro kv hkv hp
  have : m.any (fun kv => kv.1 == k) = true := List.any_eq_true.mpr ⟨kv, hkv, hp⟩
  rw [h] at this
  exact Bool.false_ne_true this

theorem getAttr_append_of_none (m : Attrs) (k : String) (v : List String)
    (h : m.any (fun kv => kv.1 == k) = false) :
    getAttr (m ++ [(k, v)]) k = some v := by
  unfold getAttr
  rw [find?_append_none _ (find?_none_of_not_any m k h),
    List.find?_cons_of_pos _ (by simp)]
  rfl

theorem any_eq_false_of_not (m : Attrs) (k : String)
    (h : ¬ m.any (fun kv => kv.1 == k) = true) :
    m.any (fun kv => kv.1 == k) = false := by
  revert h
  cases m.any (fun kv => kv.1 == k) <;> simp

theorem getAttr_setAttr_self (m : Attrs) (k : String) (v : List String) :
    getAttr (setAttr m k v) k = some v := by
  unfold setAttr
  by_cases h : m.any (fun kv => kv.1 == k) = true
  · rw [if_pos h]; exact getAttr_overwrite_of_any m k v h
  · rw [if_neg h]
    exact getAttr_append_of_none m k v (any_eq_false_of_not m k h)

theorem getAttr_setAttr_other (m : Attrs) (k : String) (v : List String) (q : String)
    (h : q ≠ k) : getAttr (setAttr m k v) q = getAttr m q := by
  unfold setAttr
  by_cases hm : m.any (fun kv => kv.1 == k) = true
  · rw [if_pos hm]
    unfold getAttr
    rw [find?_map_pred]
    · cases hf : m.find? (fun kv => kv.1 == q) with
      | none => rfl
      | some kv =>
        have hq := List.find?_some hf
        have hkv : kv.1 = q := by simpa using hq
        have hne : (kv.1 == k) = false :=
          beq_eq_false_iff_ne.mpr (by rw [hkv]; exact h)
        have hid : (if kv.1 == k then (k, v) else kv) = kv := by simp [hne]
        simp only [Option.map_some']
        rw [hid]
    · intro a _
      by_cases hak : a.1 = k
      · have hb : (a.1 == k) = true := by simpa using hak
        have h1 : (k == q) = false := beq_eq_false_iff_ne.mpr (fun hk => h hk.symm)
        have h2 : (a.1 == q) = false :=
          beq_eq_false_iff_ne.mpr (by rw [hak]; exact fun hk => h hk.symm)
        simp [hb, h1, h2]
      · have hb : (a.1 == k) = false := beq_eq_false_iff_ne.mpr hak
        simp [hb]
  · rw [if_neg hm]
    unfold getAttr
    cases hf : m.find? (fun kv => kv.1 == q) with
    | none =>
      rw [find?_append_none _ hf]
      have hne : (k == q) = false := beq_eq_false_iff_ne.mpr (fun hk => h hk.symm)
      rw [List.find?_cons_of_neg _ (by simp [hne]), List.find?_nil]
    | some kv => rw [find?_append_some _ hf]

theorem setAttr_key_present (m : Attrs) (k : String) (v : List String) :
    (setAttr m k v).any (fun kv => kv.1 == k) = true := by
  unfold setAttr
  by_cases hm : m.any (fun kv => kv.1 == k) = true
  · rw [if_pos hm]
    rw [List.any_eq_true] at hm ⊢
    obtain ⟨a, ha, hak⟩ := hm
    refine ⟨(k, v), List.mem_map.mpr ⟨a, ha, ?_⟩, by simp⟩
    simp only [hak, if_true]
  · rw [if_neg hm]
    rw [List.any_eq_true]
    exact ⟨(k, v), List.mem_append.mpr (Or.inr (List.mem_singleton.mpr rfl)), by simp⟩

theorem setAttr_any_other (m : Attrs) (k : String) (v : List String) (q : String)
    (h : q ≠ k) :
    (setAttr m k v).any (fun kv => kv.1 == q) = m.any (fun kv => kv.1 == q) := by
  unfold setAttr
  by_cases hm : m.any (fun kv => kv.1 == k) = true
  · rw [if_pos hm]
    clear hm
    induction m with
    | nil => rfl
    | cons a t ih =>
      simp only [List.map_cons, List.any_cons]
      rw [ih]
      by_cases hak : a.1 = k
      · have hb : (a.1 == k) = true := by simpa using hak
        have h1 : (k == q) = false := beq_eq_false_iff_ne.mpr (fun hk => h hk.symm)
        have h2 : (a.1 == q) = false := beq_eq_false_iff_ne.mpr (by rw [hak]; exact fun hk => h hk.symm)
        simp [hb, h1, h2]
      · have hb : (a.1 == k) = false := beq_eq_false_iff_ne.mpr hak
        simp [hb]
  · rw [if_neg hm]
    have h1 : (k == q) = false := beq_eq_false_iff_ne.mpr (fun hk => h hk.symm)
    simp [List.any_append, h1]

theorem setAttr_entries_self (m : Attrs) (k : String) (v : List String) :
    ∀ kv ∈ setAttr m k v, kv.1 = k → kv.2 = v := by
  intro kv hkv hk
  unfold setAttr at hkv
  by_cases hm : m.any (fun kv => kv.1 == k) = true
  · rw [if_pos hm] at hkv
    rcases List.mem_map.mp hkv with ⟨a, _, ha⟩
    by_cases hak : a.1 = k
    · have hb : (a.1 == k) = true := by simpa using hak
      rw [hb, if_pos rfl] at ha
      rw [← ha]
    · have hb : (a.1 == k) = false := beq_eq_false_iff_ne.mpr hak
      rw [hb] at ha
      simp only [Bool.false_eq_true, if_false] at ha
      exact absurd (ha ▸ hk) hak
  · rw [if_neg hm] at hkv
    rcases List.mem_append.mp hkv with hin | hin
    · exact absurd (List.any_eq_true.mpr ⟨kv, hin, by simpa using hk⟩) hm
    · rw [List.mem_singleton.mp hin]

theorem setAttr_entries_other (m : Attrs) (k : String) (v : List String) (q : String)
    (w : List String) (h : q ≠ k) (hm : ∀ kv ∈ m, kv.1 = q → kv.2 = w) :
    ∀ kv ∈ setAttr m k v, kv.1 = q → kv.2 = w := by
  intro kv hkv hq
  unfold setAttr at hkv
  by_cases hany : m.any (fun kv => kv.1 == k) = true
  · rw [if_pos hany] at hkv
    rcases List.mem_map.mp hkv with ⟨a, hmem, ha⟩
    by_cases hak : a.1 = k
    · have hb : (a.1 == k) = true := by simpa using hak
      rw [hb, if_pos rfl] at ha
      exfalso
      apply h
      rw [← hq, ← ha]
    · have hb : (a.1 == k) = false := beq_eq_false_iff_ne.mpr hak
      rw [hb] at ha
      simp only [Bool.false_eq_true, if_false] at ha
      exact hm kv (ha ▸ hmem) hq
  · rw [if_neg hany] at hkv
    rcases List.mem_append.mp hkv with hin | hin
    · exact hm kv hin hq
    · exfalso
      rw [List.mem_singleton.mp hin] at hq
      exact h hq.symm

theorem setAttr_noop (m : Attrs) (k : String) (v : List String)
    (hpres : m.any (fun kv => kv.1 == k) = true)
    (hval : ∀ kv ∈ m, kv.1 = k → kv.2 = v) : setAttr m k v = m := by
  unfold setAttr
  rw [if_pos hpres]
  apply map_id_of_mem
  intro a ha
  by_cases hak : a.1 = k
  · have hb : (a.1 == k) = true := by simpa using hak
    rw [hb, if_pos rfl]
    have hv := hval a ha hak
    cases a with
    | mk x y =>
      simp only at hak hv
      rw [hak, hv]
  · have hb : (a.1 == k) = false := beq_eq_false_iff_ne.mpr hak
    simp [hb]

theorem mergedAttrs_idem (a : Attrs) (pid : Nat) :
    mergedAttrs (mergedAttrs a pid) pid = mergedAttrs a pid := by
  have hne1 : ("type" : String) ≠ "lagoon-projects" := by decide
  unfold mergedAttrs
  set b := setAttr (setAttr a "type" ["project-default-group"]) "lagoon-projects"
    [Nat.repr pid] with hb
  have hTpres : b.any (fun kv => kv.1 == "type") = true := by
    rw [hb, setAttr_any_other _ _ _ _ hne1]
    exact setAttr_key_present _ _ _
  have hTval : ∀ kv ∈ b, kv.1 = "type" → kv.2 = ["project-default-group"] := by
    rw [hb]
    exact setAttr_entries_other _ _ _ _ _ hne1 (setAttr_entries_self _ _ _)
  rw [setAttr_noop b "type" _ hTpres hTval]
  exact setAttr_noop b "lagoon-projects" _ (setAttr_key_present _ _ _)
    (setAttr_entries_self _ _ _)

/-! ## Claim C9 -/

/-- C9 The claim states the serialized private-key text is normalized to a
single canonical newline representation.  The source replacement (line 130)
substitutes a newline for a newline, the identity, so a serialization carrying
a carriage-return line ending keeps it: evaluating the embedded replacement on
such a text returns it unchanged, with the carriage return still present. -/
theorem c9_normalize_keeps_carriage_return :
    normalizeNewlines ['k', '\r', '\n', 'x'] = ['k', '\r', '\n', 'x'] ∧
    '\r' ∈ normalizeNewlines ['k', '\r', '\n', 'x'] := by decide

/-! ## Claim C5 -/

/-- C5 Key material resolution: an absent field generates a fresh Ed25519 key
and derives its public part; an empty field likewise; stored well-formed key
text is parsed, not regenerated (the state, and with it the generation
counter, is untouched); malformed stored text is a parse error. -/
theorem c5_keypair_resolution (env : Env) (st : St) (k : Nat) (s : String)
    (hs : s ≠ "") :
    resolveKeyPair env st none =
      Except.ok ((serializePriv (generatePrivateKeyEd25519 env st.genCounter),
          pubToString (toPublic (generatePrivateKeyEd25519 env st.genCounter))),
        { st with genCounter := st.genCounter + 1 }) ∧
    resolveKeyPair env st (some (PrivText.malformed "")) =
      Except.ok ((serializePriv (generatePrivateKeyEd25519 env st.genCounter),
          pubToString (toPublic (generatePrivateKeyEd25519 env st.genCounter))),
        { st with genCounter := st.genCounter + 1 }) ∧
    resolveKeyPair env st (some (PrivText.wellFormed k)) =
      Except.ok ((serializePriv k, pubToString (toPublic k)), st) ∧
    resolveKeyPair env st (some (PrivText.malformed s)) =
      Except.error (MErr.generic ("could not parse " ++ s)) := by
  refine ⟨rfl, rfl, rfl, ?_⟩
  have hbe : (s == "") = false := beq_eq_false_iff_ne.mpr hs
  simp [resolveKeyPair, PrivText.isEmptyText, hbe, parsePrivateKey]

/-! ## Claim C7 -/

/-- C7 Updating an existing group merges the new attributes over the old ones:
in the merged attribute object used by the group update, `type` maps to
`project-default-group`, `lagoon-projects` maps to the project id, and every
other pre-existing attribute key keeps its old value. -/
theorem c7_attribute_merge (old : Attrs) (pid : Nat) (k : String)
    (h1 : k ≠ "type") (h2 : k ≠ "lagoon-projects") :
    getAttr (mergedAttrs old pid) "type" = some ["project-default-group"] ∧
    getAttr (mergedAttrs old pid) "lagoon-projects" = some [Nat.repr pid] ∧
    getAttr (mergedAttrs old pid) k = getAttr old k := by
  refine ⟨?_, ?_, ?_⟩
  · unfold mergedAttrs
    rw [getAttr_setAttr_other _ _ _ _ (by decide)]
    exact getAttr_setAttr_self _ _ _
  · exact getAttr_setAttr_self _ _ _
  · unfold mergedAttrs
    rw [getAttr_setAttr_other _ _ _ _ h2, getAttr_setAttr_other _ _ _ _ h1]

/-- Witness for C7 on the spec's own example: a group with an unrelated
attribute foo keeps it, and both new attributes are present. -/
theorem c7_attribute_merge_witness :
    (("foo" : String) ≠ "type") ∧ (("foo" : String) ≠ "lagoon-projects") ∧
    (getAttr (mergedAttrs [("foo", ["bar"])] 7) "type" = some ["project-default-group"] ∧
     getAttr (mergedAttrs [("foo", ["bar"])] 7) "lagoon-projects" = some [Nat.repr 7] ∧
     getAttr (mergedAttrs [("foo", ["bar"])] 7) "foo" = getAttr [("foo", ["bar"])] "foo") :=
  ⟨by decide, by decide,
    c7_attribute_merge [("foo", ["bar"])] 7 "foo" (by decide) (by decide)⟩

/-! ## Concrete environments and states for evaluation -/

/-- An environment in which every external call succeeds; the generation
stream yields 100, 101, ... -/
def okEnv : Env :=
  { loadGroupFails := fun _ => false, updateGroupFails := fun _ => false,
    addGroupFails := fun _ => false, loadUserByUsernameFails := fun _ => false,
    addUserToGroupFails := fun _ _ _ => false, addUserFails := fun _ => false,
    loadUserByIdFails := fun _ => false, projectUserQueryFails := fun _ => false,
    writeBackFails := fun _ => false, fingerprintQueryFails := fun _ => false,
    insertSshKeyFails := fun _ => false, addSshKeyToUserFails := fun _ _ => false,
    genKey := fun n => 100 + n }

def okOr (r : Except MErr St) (d : St) : St :=
  match r with
  | Except.ok s => s
  | Except.error _ => d

/-- An empty pair of stores. -/
def wSt : St :=
  { db := { projects := [], customers := [], users := [], projectUsers := [],
            sshKeys := [], userSshKeys := [], nextSshKeyId := 1 },
    kc := { groups := [], users := [], memberships := [], nextGroupId := 1, nextUserId := 1 },
    genCounter := 0, log := [] }

/-- Witness for C5 at concrete inputs: stored well-formed key text is parsed,
not regenerated. -/
theorem c5_keypair_resolution_witness :
    ("stub" ≠ "") ∧
    resolveKeyPair okEnv wSt (some (PrivText.wellFormed 3)) =
      Except.ok ((serializePriv 3, pubToString (toPublic 3)), wSt) :=
  ⟨by decide, (c5_keypair_resolution okEnv wSt 3 "stub" (by decide)).2.2.1⟩

/-! ## Claim C1, literal reading: counterexample -/

/-- Initial data: project x (stored well-formed key 5) has a project-user row
whose relational email is the synthetic name that project y's default identity
receives; project y has no stored key. -/
def c1CexSt0 : St :=
  { db := { projects := [{ id := 1, name := "x", customer := 0, privateKey := some (PrivText.wellFormed 5) },
                         { id := 2, name := "y", customer := 0, privateKey := none }],
            customers := [],
            users := [{ id := 10, email := some "default-user@y" }],
            projectUsers := [{ pid := 1, usid := 10 }],
            sshKeys := [], userSshKeys := [], nextSshKeyId := 1 },
    kc := { groups := [], users := [], memberships := [], nextGroupId := 50, nextUserId := 60 },
    genCounter := 0, log := [] }

def c1CexRun1 : St := okOr (runMigration okEnv c1CexSt0) c1CexSt0

def c1CexRun2 : St := okOr (runMigration okEnv c1CexRun1) c1CexSt0

/-- C1 counterexample: on this initial data both runs succeed, yet the second
run adds an owner membership the first did not (the project-user email of x
only resolves once y's default identity exists), so the membership sets after
the two runs differ and the claim, read over arbitrary initial data, fails. -/
theorem c1_second_run_adds_membership :
    runMigration okEnv c1CexSt0 = Except.ok c1CexRun1 ∧
    runMigration okEnv c1CexRun1 = Except.ok c1CexRun2 ∧
    c1CexRun2.kc.memberships ≠ c1CexRun1.kc.memberships := by
  refine ⟨by decide, by decide, by decide⟩

/-! ## Claim C2, literal reading: counterexample -/

def c2CexEnv : Env := { okEnv with writeBackFails := fun pid => pid == 1 }

def c2CexSt0 : St :=
  { db := { projects := [{ id := 1, name := "a", customer := 0, privateKey := none },
                         { id := 2, name := "b", customer := 0, privateKey := none }],
            customers := [], users := [], projectUsers := [],
            sshKeys := [], userSshKeys := [], nextSshKeyId := 1 },
    kc := { groups := [], users := [], memberships := [], nextGroupId := 1, nextUserId := 1 },
    genCounter := 0, log := [] }

/-- C2 counterexample: the key write-back (lines 147-160) is not wrapped in
any try/catch, so its failure on the first project escapes the loop and the
second project is never processed — the claim that every per-project failure
is caught inside the iteration fails. -/
theorem c2_writeback_failure_escapes :
    runMigration c2CexEnv c2CexSt0 =
      Except.error (MErr.generic "sql error: key write back") := by decide

/-! ## Claim C4: the generic update-failure branch has no continue -/

def c4Env : Env := { okEnv with updateGroupFails := fun gid => gid == 5 }

def c4St0 : St :=
  { db := { projects := [{ id := 1, name := "x", customer := 0, privateKey := none }],
            customers := [], users := [], projectUsers := [],
            sshKeys := [], userSshKeys := [], nextSshKeyId := 1 },
    kc := { groups := [{ id := 5, name := "project-x", attributes := [] }], users := [],
            memberships := [], nextGroupId := 6, nextUserId := 1 },
    genCounter := 0, log := [] }

def c4St1 : St := okOr (runMigration c4Env c4St0) c4St0

/-- C4 The group update for project x fails with a generic error; the claim
(and the spec) say this is terminal for the project, yet the code only logs
and falls through: the key step still generates and persists a key, the
identity binder still creates the default user, and the guest add is still
attempted (failing on the undefined group), as this evaluation shows. -/
theorem c4_later_steps_run_after_update_failure :
    runMigration c4Env c4St0 = Except.ok c4St1 ∧
    (c4St1.db.projects.map (fun r => r.privateKey)) = [some (PrivText.wellFormed 100)] ∧
    c4St1.kc.users.length = 1 ∧
    c4St1.kc.groups = [{ id := 5, name := "project-x", attributes := [] }] ∧
    ("Could not update group project-x: group update failed") ∈ c4St1.log := by
  refine ⟨by decide, by decide, by decide, by decide, by decide⟩

/-! ## Characterization of the external operations on success -/

theorem updateGroup_ok (env : Env) (st : St) (gid : Nat) (gname : String) (attrs : Attrs)
    (g' : KCGroup) (st' : St)
    (h : updateGroup env st gid gname attrs = Except.ok (g', st')) :
    g' = { id := gid, name := gname, attributes := attrs } ∧
    st' = { st with kc := { st.kc with groups := st.kc.groups.map (fun g =>
      if g.id == gid then { g with name := gname, attributes := attrs } else g) } } := by
  unfold updateGroup at h
  split at h
  · exact Except.noConfusion h
  · have := Except.ok.inj h
    exact ⟨(congrArg Prod.fst this).symm, (congrArg Prod.snd this).symm⟩

theorem addGroup_ok (env : Env) (st : St) (gname : String) (attrs : Attrs)
    (g' : KCGroup) (st' : St)
    (h : addGroup env st gname attrs = Except.ok (g', st')) :
    g' = { id := st.kc.nextGroupId, name := gname, attributes := attrs } ∧
    st' = { st with kc := { st.kc with
      groups := st.kc.groups ++ [{ id := st.kc.nextGroupId, name := gname, attributes := attrs }],
      nextGroupId := st.kc.nextGroupId + 1 } } := by
  unfold addGroup at h
  split at h
  · exact Except.noConfusion h
  · have := Except.ok.inj h
    exact ⟨(congrArg Prod.fst this).symm, (congrArg Prod.snd this).symm⟩

theorem addUser_ok (env : Env) (st : St) (uname mail cmt : String)
    (u : KCUser) (st' : St)
    (h : addUser env st uname mail cmt = Except.ok (u, st')) :
    u = { id := st.kc.nextUserId, username := uname, email := mail, comment := cmt } ∧
    st' = { st with kc := { st.kc with
      users := st.kc.users ++ [u],
      nextUserId := st.kc.nextUserId + 1 } } ∧
    st.kc.users.any (fun v => v.username == uname) = false := by
  unfold addUser at h
  split at h
  · exact Except.noConfusion h
  · split at h
    · exact Except.noConfusion h
    · rename_i hflag hany
      have hinj := Except.ok.inj h
      have hu : u = { id := st.kc.nextUserId, username := uname, email := mail, comment := cmt } :=
        (congrArg Prod.fst hinj).symm
      refine ⟨hu, ?_, ?_⟩
      · rw [hu]
        exact (congrArg Prod.snd hinj).symm
      · revert hany
        cases st.kc.users.any (fun v => v.username == uname) <;> simp

theorem addUserToGroup_ok (env : Env) (st : St) (u? : Option KCUser)
    (g? : Option KCGroup) (role : Role) (st' : St)
    (h : addUserToGroup env st u? g? role = Except.ok st') :
    ∃ u g, u? = some u ∧ g? = some g ∧
      (st' = st ∨
       (¬ (u.id, g.id, role) ∈ st.kc.memberships ∧
        st' = { st with kc := { st.kc with
          memberships := st.kc.memberships ++ [(u.id, g.id, role)] } })) := by
  cases u? with
  | none =>
    have hred : addUserToGroup env st none g? role =
        Except.error (MErr.generic "invalid user or group") := by
      cases g? <;> rfl
    rw [hred] at h
    exact Except.noConfusion h
  | some u =>
    cases g? with
    | none =>
      have hred : addUserToGroup env st (some u) none role =
          Except.error (MErr.generic "invalid user or group") := rfl
      rw [hred] at h
      exact Except.noConfusion h
    | some g =>
      have hred : addUserToGroup env st (some u) (some g) role =
          (if env.addUserToGroupFails u.id g.id role then
            Except.error (MErr.generic "member add failed")
          else if (u.id, g.id, role) ∈ st.kc.memberships then Except.ok st
          else Except.ok { st with kc := { st.kc with
            memberships := st.kc.memberships ++ [(u.id, g.id, role)] } }) := rfl
      rw [hred] at h
      refine ⟨u, g, rfl, rfl, ?_⟩
      split at h
      · exact Except.noConfusion h
      · split at h
        · exact Or.inl (Except.ok.inj h).symm
        · rename_i hmem
          exact Or.inr ⟨hmem, (Except.ok.inj h).symm⟩

theorem insertSshKey_ok (env : Env) (st : St) (keyType : String) (keyValue fp : Nat)
    (kid : Nat) (st' : St)
    (h : insertSshKey env st keyType keyValue fp = Except.ok (kid, st')) :
    kid = st.db.nextSshKeyId ∧
    st' = { st with db := { st.db with
      sshKeys := st.db.sshKeys ++
        [{ id := st.db.nextSshKeyId, keyName := "auto-add via migration", keyType := keyType,
           keyValue := keyValue, keyFingerprint := fp }],
      nextSshKeyId := st.db.nextSshKeyId + 1 } } := by
  unfold insertSshKey at h
  split at h
  · exact Except.noConfusion h
  · have := Except.ok.inj h
    exact ⟨(congrArg Prod.fst this).symm, (congrArg Prod.snd this).symm⟩

theorem addSshKeyToUser_ok (env : Env) (st : St) (skid uid : Nat) (st' : St)
    (h : addSshKeyToUser env st skid uid = Except.ok st') :
    st' = { st with db := { st.db with
      userSshKeys := st.db.userSshKeys ++ [{ usid := uid, skid := skid }] } } := by
  unfold addSshKeyToUser at h
  split at h
  · exact Except.noConfusion h
  · exact (Except.ok.inj h).symm

theorem loadGroupByName_ok (env : Env) (st : St) (gname : String) (g : KCGroup)
    (h : loadGroupByName env st gname = Except.ok g) :
    st.kc.groups.find? (fun g' => g'.name == gname) = some g := by
  unfold loadGroupByName at h
  split at h
  · exact Except.noConfusion h
  · split at h
    · rename_i hf
      rw [hf]
      exact congrArg some (Except.ok.inj h)
    · exact Except.noConfusion h

theorem loadUserById_ok (env : Env) (st : St) (uid : Nat) (u : KCUser)
    (h : loadUserById env st uid = Except.ok u) :
    st.kc.users.find? (fun v => v.id == uid) = some u := by
  unfold loadUserById at h
  split at h
  · exact Except.noConfusion h
  · split at h
    · rename_i hf
      rw [hf]
      exact congrArg some (Except.ok.inj h)
    · exact Except.noConfusion h

theorem loadUserByUsername_ok (env : Env) (st : St) (e? : Option String) (u : KCUser)
    (h : loadUserByUsername env st e? = Except.ok u) :
    ∃ e, e? = some e ∧ st.kc.users.find? (fun v => v.username == e) = some u := by
  cases e? with
  | none =>
    have hred : loadUserByUsername env st none =
        Except.error (MErr.userNotFound "undefined") := rfl
    rw [hred] at h
    exact Except.noConfusion h
  | some e =>
    have hred : loadUserByUsername env st (some e) =
        (if env.loadUserByUsernameFails e then Except.error (MErr.generic "user load failed")
        else match st.kc.users.find? (fun u => u.username == e) with
          | some u => Except.ok u
          | none => Except.error (MErr.userNotFound ("User not found: " ++ e))) := rfl
    rw [hred] at h
    refine ⟨e, rfl, ?_⟩
    split at h
    · exact Except.noConfusion h
    · split at h
      · rename_i hf
        rw [hf]
        exact congrArg some (Except.ok.inj h)
      · exact Except.noConfusion h

/-! ## Phase-level lemmas -/

theorem groupStep_state (env : Env) (p : ProjectRow) (st st1 : St)
    (r : Option (Option KCGroup)) (h : groupStep env p st = (st1, r)) :
    st1.db = st.db ∧ st1.kc.users = st.kc.users ∧ st1.kc.memberships = st.kc.memberships ∧
    st1.kc.nextUserId = st.kc.nextUserId ∧ st1.genCounter = st.genCounter := by
  unfold groupStep at h
  split at h
  · rename_i g hload
    split at h
    · rename_i g' st2 heq2
      obtain ⟨hg, hst⟩ := updateGroup_ok env st g.id g.name _ g' st2 heq2
      have hs : st1 = st2 := (congrArg Prod.fst h).symm
      rw [hs, hst]
      exact ⟨rfl, rfl, rfl, rfl, rfl⟩
    · have hs : st1 = logLine st _ := (congrArg Prod.fst h).symm
      rw [hs]
      exact ⟨rfl, rfl, rfl, rfl, rfl⟩
  · split at h
    · rename_i g' st2 heq2
      obtain ⟨hg, hst⟩ := addGroup_ok env st _ _ g' st2 heq2
      have hs : st1 = st2 := (congrArg Prod.fst h).symm
      rw [hs, hst]
      exact ⟨rfl, rfl, rfl, rfl, rfl⟩
    · have hs : st1 = logLine st _ := (congrArg Prod.fst h).symm
      rw [hs]
      exact ⟨rfl, rfl, rfl, rfl, rfl⟩
  · have hs : st1 = logLine st _ := (congrArg Prod.fst h).symm
    rw [hs]
    exact ⟨rfl, rfl, rfl, rfl, rfl⟩

theorem addProjectUser_ok (env : Env) (g? : Option KCGroup) (e? : Option String)
    (st st' : St) (h : addProjectUser env g? e? st = Except.ok st') :
    st'.db = st.db ∧ st'.kc.users = st.kc.users ∧ st'.kc.groups = st.kc.groups ∧
    st'.genCounter = st.genCounter ∧ st'.kc.nextUserId = st.kc.nextUserId ∧
    st'.kc.nextGroupId = st.kc.nextGroupId ∧
    (st'.kc.memberships = st.kc.memberships ∨
     ∃ uid g, g? = some g ∧
       st'.kc.memberships = st.kc.memberships ++ [(uid, g.id, Role.owner)]) := by
  cases hl : loadUserByUsername env st e? with
  | ok u =>
    cases ha : addUserToGroup env st (some u) g? Role.owner with
    | ok st2 =>
      have hred : addProjectUser env g? e? st = Except.ok st2 := by
        unfold addProjectUser
        rw [hl]
        dsimp only
        rw [ha]
      rw [hred] at h
      have hs : st2 = st' := Except.ok.inj h
      obtain ⟨u', g, _, hg, hcase⟩ := addUserToGroup_ok env st (some u) g? Role.owner st2 ha
      rcases hcase with hsame | ⟨_, happ⟩
      · rw [← hs, hsame]
        exact ⟨rfl, rfl, rfl, rfl, rfl, rfl, Or.inl rfl⟩
      · rw [← hs, happ]
        exact ⟨rfl, rfl, rfl, rfl, rfl, rfl, Or.inr ⟨u'.id, g, hg, rfl⟩⟩
    | error e =>
      cases g? with
      | some g =>
        have hred : addProjectUser env (some g) e? st =
            Except.ok (logLine st ("Could not add user (" ++ emailText e? ++ ") to group (" ++
              g.name ++ "): " ++ e.message)) := by
          unfold addProjectUser
          rw [hl]
          dsimp only
          rw [ha]
        rw [hred] at h
        have hs := Except.ok.inj h
        rw [← hs]
        exact ⟨rfl, rfl, rfl, rfl, rfl, rfl, Or.inl rfl⟩
      | none =>
        have hred : addProjectUser env none e? st =
            Except.error (MErr.generic "TypeError: cannot read name of undefined") := by
          unfold addProjectUser
          rw [hl]
          dsimp only
          rw [ha]
        rw [hred] at h
        exact Except.noConfusion h
  | error e =>
    cases g? with
    | some g =>
      have hred : addProjectUser env (some g) e? st =
          Except.ok (logLine st ("Could not add user (" ++ emailText e? ++ ") to group (" ++
            g.name ++ "): " ++ e.message)) := by
        unfold addProjectUser
        rw [hl]
      rw [hred] at h
      have hs := Except.ok.inj h
      rw [← hs]
      exact ⟨rfl, rfl, rfl, rfl, rfl, rfl, Or.inl rfl⟩
    | none =>
      have hred : addProjectUser env none e? st =
          Except.error (MErr.generic "TypeError: cannot read name of undefined") := by
        unfold addProjectUser
        rw [hl]
      rw [hred] at h
      exact Except.noConfusion h

theorem ownerPhase_ok (env : Env) (g? : Option KCGroup) :
    ∀ (es : List (Option String)) (st st' : St),
      ownerPhase env g? es st = Except.ok st' →
      st'.db = st.db ∧ st'.kc.users = st.kc.users ∧ st'.kc.groups = st.kc.groups ∧
      st'.genCounter = st.genCounter ∧ st'.kc.nextUserId = st.kc.nextUserId ∧
      st'.kc.nextGroupId = st.kc.nextGroupId ∧
      st'.kc.memberships.filter (fun m => m.2.2 == Role.guest) =
        st.kc.memberships.filter (fun m => m.2.2 == Role.guest) ∧
      (∀ m ∈ st.kc.memberships, m ∈ st'.kc.memberships) := by
  intro es
  induction es with
  | nil =>
    intro st st' h
    have hs : st = st' := Except.ok.inj h
    rw [← hs]
    exact ⟨rfl, rfl, rfl, rfl, rfl, rfl, rfl, fun m hm => hm⟩
  | cons e es ih =>
    intro st st' h
    unfold ownerPhase at h
    split at h
    · rename_i st2 heq
      obtain ⟨h1, h2, h3, h4, h5, h6, hms⟩ := addProjectUser_ok env g? e st st2 heq
      obtain ⟨g1, g2, g3, g4, g5, g6, g7, g8⟩ := ih st2 st' h
      refine ⟨g1.trans h1, g2.trans h2, g3.trans h3, g4.trans h4, g5.trans h5,
        g6.trans h6, ?_, ?_⟩
      · rw [g7]
        rcases hms with hsame | ⟨uid, g, _, happ⟩
        · rw [hsame]
        · rw [happ, List.filter_append]
          simp
      · intro m hm
        apply g8
        rcases hms with hsame | ⟨uid, g, _, happ⟩
        · rw [hsame]; exact hm
        · rw [happ]; exact List.mem_append.mpr (Or.inl hm)
    · exact Except.noConfusion h

theorem resolveKeyPair_gen (env : Env) (st : St) (pk? : Option PrivText)
    (hf : jsTruthy pk? = false) :
    resolveKeyPair env st pk? =
      Except.ok ((serializePriv (generatePrivateKeyEd25519 env st.genCounter),
        pubToString (toPublic (generatePrivateKeyEd25519 env st.genCounter))),
        { st with genCounter := st.genCounter + 1 }) := by
  cases pk? with
  | none => rfl
  | some t =>
    have hf' : (!t.isEmptyText) = false := hf
    have ht : t.isEmptyText = true := by simpa using hf'
    simp only [resolveKeyPair, ht, if_true]

theorem resolveKeyPair_parse_wellFormed (env : Env) (st : St) (k : Nat) :
    resolveKeyPair env st (some (PrivText.wellFormed k)) =
      Except.ok ((serializePriv k, pubToString (toPublic k)), st) := rfl

theorem resolveKeyPair_parse_malformed (env : Env) (st : St) (s : String) (hs : s ≠ "") :
    resolveKeyPair env st (some (PrivText.malformed s)) =
      Except.error (MErr.generic ("could not parse " ++ s)) := by
  have hbe : (s == "") = false := beq_eq_false_iff_ne.mpr hs
  have ht : (PrivText.malformed s).isEmptyText = false := hbe
  simp only [resolveKeyPair, ht, Bool.false_eq_true, if_false]
  rfl

theorem identityStep_ok (env : Env) (p : ProjectRow) (pub : PubText) (st : St)
    (r : Option KCUser) (st' : St)
    (h : identityStep env p pub st = Except.ok (r, st')) :
    st'.db.projects = st.db.projects ∧ st'.db.users = st.db.users ∧
    st'.db.projectUsers = st.db.projectUsers ∧ st'.db.customers = st.db.customers ∧
    st'.kc.groups = st.kc.groups ∧ st'.kc.memberships = st.kc.memberships ∧
    st'.genCounter = st.genCounter ∧ st'.kc.nextGroupId = st.kc.nextGroupId := by
  unfold identityStep at h
  split at h
  · exact Except.noConfusion h
  · split at h
    · -- fingerprint hit: load by id
      split at h
      · rename_i u heq
        have hs : st = st' := congrArg Prod.snd (Except.ok.inj h)
        rw [← hs]
        exact ⟨rfl, rfl, rfl, rfl, rfl, rfl, rfl, rfl⟩
      · exact Except.noConfusion h
    · -- creation path
      split at h
      · -- addUser failed: logged
        have hs : _ = st' := congrArg Prod.snd (Except.ok.inj h)
        rw [← hs]
        exact ⟨rfl, rfl, rfl, rfl, rfl, rfl, rfl, rfl⟩
      · rename_i u st1 heq
        obtain ⟨hu, hst1, _⟩ := addUser_ok env st _ _ _ u st1 heq
        split at h
        · -- insert failed: logged
          have hs : _ = st' := congrArg Prod.snd (Except.ok.inj h)
          rw [← hs, hst1]
          exact ⟨rfl, rfl, rfl, rfl, rfl, rfl, rfl, rfl⟩
        · rename_i kid st2 heq2
          obtain ⟨hkid, hst2⟩ := insertSshKey_ok env st1 _ _ _ kid st2 heq2
          split at h
          · -- link failed: logged
            have hs : _ = st' := congrArg Prod.snd (Except.ok.inj h)
            rw [← hs, hst2, hst1]
            exact ⟨rfl, rfl, rfl, rfl, rfl, rfl, rfl, rfl⟩
          · rename_i st3 heq3
            have hst3 := addSshKeyToUser_ok env st2 kid u.id st3 heq3
            have hs : _ = st' := congrArg Prod.snd (Except.ok.inj h)
            rw [← hs, hst3, hst2, hst1]
            exact ⟨rfl, rfl, rfl, rfl, rfl, rfl, rfl, rfl⟩

theorem guestStep_state (env : Env) (p : ProjectRow) (u? : Option KCUser)
    (g? : Option KCGroup) (st : St) :
    (guestStep env p u? g? st).db = st.db ∧
    (guestStep env p u? g? st).kc.users = st.kc.users ∧
    (guestStep env p u? g? st).kc.groups = st.kc.groups ∧
    (guestStep env p u? g? st).genCounter = st.genCounter := by
  unfold guestStep
  split
  · rename_i st2 heq
    obtain ⟨u, g, _, _, hcase⟩ := addUserToGroup_ok env st u? g? Role.guest st2 heq
    rcases hcase with hsame | ⟨_, happ⟩
    · rw [hsame]
      exact ⟨rfl, rfl, rfl, rfl⟩
    · rw [happ]
      exact ⟨rfl, rfl, rfl, rfl⟩
  · exact ⟨rfl, rfl, rfl, rfl⟩

theorem identityAndGuest_ok (env : Env) (p : ProjectRow) (g? : Option KCGroup)
    (pub : PubText) (st st' : St)
    (h : identityAndGuest env p g? pub st = Except.ok st') :
    st'.db.projects = st.db.projects ∧ st'.genCounter = st.genCounter := by
  unfold identityAndGuest at h
  split at h
  · exact Except.noConfusion h
  · rename_i u2 st2 heq
    have hs : guestStep env p u2 g? st2 = st' := Except.ok.inj h
    obtain ⟨h1, _, _, _, _, _, h7, _⟩ := identityStep_ok env p pub st u2 st2 heq
    obtain ⟨g1, _, _, g4⟩ := guestStep_state env p u2 g? st2
    rw [← hs]
    exact ⟨(congrArg DB.projects g1).trans h1, g4.trans h7⟩

/-! ## Claim C6 -/

/-- C6 A project whose stored key text fails to parse is logged and stops at
the key step: the relational store is untouched (no key persisted, no key or
link rows), no identity is created, no guest membership is added, and the
iteration returns normally so the loop continues with the next project.  The
skip message is logged whenever the group step did not already leave the
iteration. -/
theorem c6_malformed_key_terminal (env : Env) (p : ProjectRow) (st st' : St) (s : String)
    (hkey : p.privateKey = some (PrivText.malformed s)) (hs : s ≠ "")
    (hok : processProject env p st = Except.ok st') :
    st'.db = st.db ∧ st'.kc.users = st.kc.users ∧
    st'.kc.memberships.filter (fun m => m.2.2 == Role.guest) =
      st.kc.memberships.filter (fun m => m.2.2 == Role.guest) ∧
    ((groupStep env p (logLine st ("Processing " ++ p.name))).2 ≠ none →
      ("Skipping adding default user with associated project public key for project " ++
        p.name) ∈ st'.log) := by
  unfold processProject at hok
  split at hok
  · rename_i st1 heq
    have hst : st1 = st' := Except.ok.inj hok
    obtain ⟨d1, d2, d3, _, _⟩ :=
      groupStep_state env p (logLine st ("Processing " ++ p.name)) st1 none heq
    refine ⟨?_, ?_, ?_, ?_⟩
    · rw [← hst]; exact d1
    · rw [← hst]; exact d2
    · rw [← hst]; exact congrArg (List.filter (fun m => m.2.2 == Role.guest)) d3
    · intro hne
      rw [heq] at hne
      exact absurd rfl hne
  · rename_i st1 group? heq
    split at hok
    · exact Except.noConfusion hok
    · split at hok
      · exact Except.noConfusion hok
      · rename_i st2 heq2
        rw [hkey, resolveKeyPair_parse_malformed env st2 s hs] at hok
        dsimp only at hok
        have hst : _ = st' := Except.ok.inj hok
        obtain ⟨d1, d2, d3, _, _⟩ :=
          groupStep_state env p (logLine st ("Processing " ++ p.name)) st1 (some group?) heq
        obtain ⟨o1, o2, _, _, _, _, o7, _⟩ := ownerPhase_ok env group? _ st1 st2 heq2
        refine ⟨?_, ?_, ?_, ?_⟩
        · rw [← hst]; exact o1.trans d1
        · rw [← hst]; exact o2.trans d2
        · rw [← hst]
          exact o7.trans (congrArg (List.filter (fun m => m.2.2 == Role.guest)) d3)
        · intro _
          rw [← hst]
          exact List.mem_append.mpr (Or.inr (List.mem_singleton.mpr rfl))

def c6Row : ProjectRow :=
  { id := 1, name := "m", customer := 0, privateKey := some (PrivText.malformed "garbage") }

def c6St0 : St :=
  { db := { projects := [c6Row], customers := [], users := [], projectUsers := [],
            sshKeys := [], userSshKeys := [], nextSshKeyId := 1 },
    kc := { groups := [], users := [], memberships := [], nextGroupId := 1, nextUserId := 1 },
    genCounter := 0, log := [] }

def c6Res : St := okOr (processProject okEnv c6Row c6St0) c6St0

/-- Witness for C6 at a concrete malformed-key project. -/
theorem c6_malformed_key_terminal_witness :
    (c6Row.privateKey = some (PrivText.malformed "garbage")) ∧ ("garbage" ≠ "") ∧
    (processProject okEnv c6Row c6St0 = Except.ok c6Res) ∧
    (c6Res.db = c6St0.db ∧ c6Res.kc.users = c6St0.kc.users ∧
     c6Res.kc.memberships.filter (fun m => m.2.2 == Role.guest) =
       c6St0.kc.memberships.filter (fun m => m.2.2 == Role.guest) ∧
     ((groupStep okEnv c6Row (logLine c6St0 ("Processing " ++ c6Row.name))).2 ≠ none →
       ("Skipping adding default user with associated project public key for project " ++
         c6Row.name) ∈ c6Res.log)) :=
  ⟨by decide, by decide, by decide,
    c6_malformed_key_terminal okEnv c6Row c6St0 c6Res "garbage" (by decide) (by decide)
      (by decide)⟩

/-! ## Claim C8 -/

/-- C8 The private key is written back to the project row exactly when the
stored field was falsy (absent or empty) and a key was therefore generated:
with a truthy stored field the project rows and the generation counter are
untouched, and with a falsy field either the group step already left the
iteration (no generation, no write) or exactly one key was generated and the
rows are updated once, keyed by the project id, with its serialization. -/
theorem c8_writeback_iff_generated (env : Env) (p : ProjectRow) (st st' : St)
    (hok : processProject env p st = Except.ok st') :
    (jsTruthy p.privateKey = true →
      st'.genCounter = st.genCounter ∧ st'.db.projects = st.db.projects) ∧
    (jsTruthy p.privateKey = false →
      (st'.genCounter = st.genCounter ∧ st'.db.projects = st.db.projects) ∨
      (st'.genCounter = st.genCounter + 1 ∧
       st'.db.projects = writeBackRows st.db.projects p.id
         (serializePriv (generatePrivateKeyEd25519 env st.genCounter)))) := by
  unfold processProject at hok
  split at hok
  · rename_i st1 heq
    have hst : st1 = st' := Except.ok.inj hok
    obtain ⟨d1, _, _, _, d5⟩ :=
      groupStep_state env p (logLine st ("Processing " ++ p.name)) st1 none heq
    constructor
    · intro _
      rw [← hst]
      exact ⟨d5, congrArg DB.projects d1⟩
    · intro _
      exact Or.inl (by rw [← hst]; exact ⟨d5, congrArg DB.projects d1⟩)
  · rename_i st1 group? heq
    split at hok
    · exact Except.noConfusion hok
    · split at hok
      · exact Except.noConfusion hok
      · rename_i st2 heq2
        obtain ⟨d1, _, _, _, d5⟩ :=
          groupStep_state env p (logLine st ("Processing " ++ p.name)) st1 (some group?) heq
        obtain ⟨o1, _, _, o4, _, _, _, _⟩ := ownerPhase_ok env group? _ st1 st2 heq2
        have hpr2 : st2.db.projects = st.db.projects :=
          (congrArg DB.projects o1).trans (congrArg DB.projects d1)
        have hgc2 : st2.genCounter = st.genCounter := o4.trans d5
        cases htr : jsTruthy p.privateKey with
        | true =>
          have hsome : ∃ t, p.privateKey = some t := by
            cases hpk : p.privateKey with
            | none => rw [hpk] at htr; exact Bool.noConfusion htr
            | some t => exact ⟨t, rfl⟩
          obtain ⟨t, hpk⟩ := hsome
          refine ⟨fun _ => ?_, fun hcontra => ?_⟩
          · cases t with
            | wellFormed k =>
              rw [hpk, resolveKeyPair_parse_wellFormed env st2 k] at hok
              dsimp only at hok
              rw [if_pos (show jsTruthy (some (PrivText.wellFormed k)) = true from rfl)] at hok
              obtain ⟨i1, i2⟩ := identityAndGuest_ok env p group? _ st2 st' hok
              exact ⟨i2.trans hgc2, i1.trans hpr2⟩
            | malformed s =>
              have hsne : s ≠ "" := by
                intro he
                rw [hpk, he] at htr
                exact Bool.noConfusion htr
              rw [hpk, resolveKeyPair_parse_malformed env st2 s hsne] at hok
              dsimp only at hok
              have hst : _ = st' := Except.ok.inj hok
              rw [← hst]
              exact ⟨hgc2, hpr2⟩
          · exact Bool.noConfusion hcontra
        | false =>
          refine ⟨fun hcontra => ?_, fun _ => ?_⟩
          · exact Bool.noConfusion hcontra
          · rw [resolveKeyPair_gen env st2 p.privateKey htr] at hok
            dsimp only at hok
            rw [htr, if_neg Bool.false_ne_true] at hok
            split at hok
            · exact Except.noConfusion hok
            · obtain ⟨i1, i2⟩ := identityAndGuest_ok env p group? _ _ st' hok
              refine Or.inr ⟨?_, ?_⟩
              · rw [i2, hgc2]
              · rw [i1, hpr2, hgc2]

def c8Row : ProjectRow := { id := 9, name := "g", customer := 0, privateKey := none }

def c8St0 : St :=
  { db := { projects := [c8Row], customers := [], users := [], projectUsers := [],
            sshKeys := [], userSshKeys := [], nextSshKeyId := 1 },
    kc := { groups := [], users := [], memberships := [], nextGroupId := 1, nextUserId := 1 },
    genCounter := 0, log := [] }

def c8Res : St := okOr (processProject okEnv c8Row c8St0) c8St0

/-- Witness for C8 at a concrete keyless project: generation runs once and the
write-back is the single update keyed by the project id. -/
theorem c8_writeback_iff_generated_witness :
    (processProject okEnv c8Row c8St0 = Except.ok c8Res) ∧
    ((jsTruthy c8Row.privateKey = true →
       c8Res.genCounter = c8St0.genCounter ∧ c8Res.db.projects = c8St0.db.projects) ∧
     (jsTruthy c8Row.privateKey = false →
       (c8Res.genCounter = c8St0.genCounter ∧ c8Res.db.projects = c8St0.db.projects) ∨
       (c8Res.genCounter = c8St0.genCounter + 1 ∧
        c8Res.db.projects = writeBackRows c8St0.db.projects c8Row.id
          (serializePriv (generatePrivateKeyEd25519 okEnv c8St0.genCounter))))) :=
  ⟨by decide, c8_writeback_iff_generated okEnv c8Row c8St0 c8Res (by decide)⟩

/-! ## Claim C10 -/

/-- C10 When the fingerprint lookup finds nothing and the identity creation
fails, the creation error is caught and logged, `user` stays undefined, the
guest add is still attempted with the undefined user, its own error is caught
and logged as well, and the step returns normally so the loop proceeds to the
next project. -/
theorem c10_undefined_user_guest_attempt (env : Env) (p : ProjectRow) (pub : PubText)
    (g : KCGroup) (st : St)
    (hq : env.fingerprintQueryFails (getSshKeyFingerprint pub) = false)
    (hfp : selectUserIdsBySshKeyFingerprint st.db (getSshKeyFingerprint pub) = none)
    (hadd : env.addUserFails ("default-user@" ++ p.name) = true) :
    identityStep env p pub st =
      Except.ok (none, logLine st ("Could not create default project user for " ++
        p.name ++ ": " ++ "user add failed")) ∧
    identityAndGuest env p (some g) pub st =
      Except.ok (logLine (logLine st ("Could not create default project user for " ++
        p.name ++ ": " ++ "user add failed"))
        ("Could not link user to default projet group for " ++ p.name ++
          ": " ++ "invalid user or group")) := by
  have haddred : addUser env st ("default-user@" ++ p.name) ("default-user@" ++ p.name)
      ("autogenerated user for project " ++ p.name) =
      Except.error (MErr.generic "user add failed") := by
    unfold addUser
    rw [hadd]
    exact if_pos rfl
  have h1 : identityStep env p pub st =
      Except.ok (none, logLine st ("Could not create default project user for " ++
        p.name ++ ": " ++ "user add failed")) := by
    unfold identityStep
    simp only [hq, Bool.false_eq_true, if_false]
    rw [hfp]
    dsimp only
    rw [haddred]
    rfl
  refine ⟨h1, ?_⟩
  unfold identityAndGuest
  rw [h1]
  rfl

def c10Env : Env := { okEnv with addUserFails := fun s => s == "default-user@w" }

def c10Row : ProjectRow := { id := 3, name := "w", customer := 0, privateKey := none }

def c10Grp : KCGroup := { id := 4, name := "project-w", attributes := [] }

/-! ## Claim C2, amended: failures of wrapped operations are contained -/

/-- Every fingerprint link refers to an existing identity-provider user. -/
def linkIntegrity (st : St) : Prop :=
  ∀ l ∈ st.db.userSshKeys, ∃ u ∈ st.kc.users, u.id = l.usid

theorem linkIntegrity_transport (st st' : St)
    (hl : st'.db.userSshKeys = st.db.userSshKeys)
    (hu : ∀ u ∈ st.kc.users, u ∈ st'.kc.users)
    (h : linkIntegrity st) : linkIntegrity st' := by
  intro l hlmem
  rw [hl] at hlmem
  obtain ⟨u, hum, hid⟩ := h l hlmem
  exact ⟨u, hu u hum, hid⟩

theorem find?_isSome_of_mem {α : Type} (l : List α) (p : α → Bool) (a : α)
    (ha : a ∈ l) (hp : p a = true) : ∃ b, l.find? p = some b := by
  induction l with
  | nil => exact absurd ha (List.not_mem_nil a)
  | cons x t ih =>
    cases hx : p x with
    | true => exact ⟨x, List.find?_cons_of_pos _ hx⟩
    | false =>
      rcases List.mem_cons.mp ha with he | ht
      · rw [he] at hp; rw [hp] at hx; exact Bool.noConfusion hx
      · obtain ⟨b, hb⟩ := ih ht
        exact ⟨b, by rw [List.find?_cons_of_neg _ (by simp [hx]), hb]⟩

theorem groupStep_wrapped (env : Env) (p : ProjectRow) (st : St)
    (h1 : env.loadGroupFails (projectGroupNameOf p) = false)
    (h2 : ∀ gid, env.updateGroupFails gid = false) :
    ∃ st1, groupStep env p st = (st1, none) ∨
      ∃ g, groupStep env p st = (st1, some (some g)) := by
  unfold groupStep
  have hl : loadGroupByName env st (projectGroupNameOf p) =
      (match st.kc.groups.find? (fun g => g.name == projectGroupNameOf p) with
       | some g => Except.ok g
       | none => Except.error (MErr.groupNotFound ("Group not found: " ++ projectGroupNameOf p))) := by
    unfold loadGroupByName
    simp only [h1, Bool.false_eq_true, if_false]
  rw [hl]
  cases hf : st.kc.groups.find? (fun g => g.name == projectGroupNameOf p) with
  | some g0 =>
    dsimp only
    cases hup : updateGroup env st g0.id g0.name (mergedAttrs g0.attributes p.id) with
    | ok pr =>
      obtain ⟨g1, st1⟩ := pr
      exact ⟨st1, Or.inr ⟨g1, rfl⟩⟩
    | error e =>
      exfalso
      unfold updateGroup at hup
      rw [h2 g0.id] at hup
      simp only [Bool.false_eq_true, if_false] at hup
      exact Except.noConfusion hup
  | none =>
    dsimp only
    cases hadd : addGroup env st (projectGroupNameOf p) (freshAttrs p.id) with
    | ok pr =>
      obtain ⟨g1, st1⟩ := pr
      exact ⟨st1, Or.inr ⟨g1, rfl⟩⟩
    | error e =>
      exact ⟨_, Or.inl rfl⟩

theorem addProjectUser_some_ok (env : Env) (g : KCGroup) (e? : Option String) (st : St) :
    ∃ st', addProjectUser env (some g) e? st = Except.ok st' := by
  unfold addProjectUser
  dsimp only
  cases hl : loadUserByUsername env st e? with
  | ok u =>
    dsimp only
    cases ha : addUserToGroup env st (some u) (some g) Role.owner with
    | ok st2 => exact ⟨st2, rfl⟩
    | error e => exact ⟨_, rfl⟩
  | error e =>
    dsimp only
    exact ⟨_, rfl⟩

theorem ownerPhase_some_ok (env : Env) (g : KCGroup) :
    ∀ (es : List (Option String)) (st : St),
      ∃ st', ownerPhase env (some g) es st = Except.ok st' := by
  intro es
  induction es with
  | nil => exact fun st => ⟨st, rfl⟩
  | cons e es ih =>
    intro st
    obtain ⟨st2, h2⟩ := addProjectUser_some_ok env g e st
    obtain ⟨st3, h3⟩ := ih st2
    refine ⟨st3, ?_⟩
    unfold ownerPhase
    rw [h2]
    exact h3

theorem identityStep_wrapped_ok (env : Env) (p : ProjectRow) (pub : PubText) (st : St)
    (h5' : env.fingerprintQueryFails (getSshKeyFingerprint pub) = false)
    (h6 : ∀ uid, env.loadUserByIdFails uid = false)
    (hint : linkIntegrity st) :
    ∃ r st', identityStep env p pub st = Except.ok (r, st') ∧ linkIntegrity st' := by
  unfold identityStep
  simp only [h5', Bool.false_eq_true, if_false]
  cases hfp : selectUserIdsBySshKeyFingerprint st.db (getSshKeyFingerprint pub) with
  | some uid =>
    dsimp only
    have hex : ∃ u ∈ st.kc.users, u.id = uid := by
      unfold selectUserIdsBySshKeyFingerprint at hfp
      cases hf : st.db.userSshKeys.find? (fun l =>
          (st.db.sshKeys.find? (fun k => k.id == l.skid)).any
            (fun k => k.keyFingerprint == getSshKeyFingerprint pub)) with
      | none => rw [hf] at hfp; exact Option.noConfusion hfp
      | some l =>
        rw [hf] at hfp
        have hlu : l.usid = uid := Option.some.inj hfp
        obtain ⟨u, hum, hid⟩ := hint l (List.mem_of_find?_eq_some hf)
        exact ⟨u, hum, hid.trans hlu⟩
    obtain ⟨u0, hu0, hid0⟩ := hex
    obtain ⟨u1, hu1⟩ := find?_isSome_of_mem st.kc.users (fun v => v.id == uid) u0 hu0
      (by simpa using hid0)
    have hload : loadUserById env st uid = Except.ok u1 := by
      unfold loadUserById
      simp only [h6 uid, Bool.false_eq_true, if_false]
      rw [hu1]
    rw [hload]
    exact ⟨some u1, st, rfl, hint⟩
  | none =>
    dsimp only
    cases hadd : addUser env st ("default-user@" ++ p.name) ("default-user@" ++ p.name)
        ("autogenerated user for project " ++ p.name) with
    | error e =>
      exact ⟨none, _, rfl, linkIntegrity_transport st _ rfl (fun u hu => hu) hint⟩
    | ok pr =>
      obtain ⟨u1, st1⟩ := pr
      obtain ⟨hpu, hpst, _⟩ := addUser_ok env st _ _ _ u1 st1 hadd
      dsimp only
      cases hins : insertSshKey env st1 pub.keyType pub.keyValue
          (getSshKeyFingerprint pub) with
      | error e =>
        refine ⟨some u1, _, rfl, ?_⟩
        apply linkIntegrity_transport st _ _ _ hint
        · rw [hpst]
          rfl
        · intro u hu
          rw [hpst]
          exact List.mem_append.mpr (Or.inl hu)
      | ok pr2 =>
        obtain ⟨kid2, st2⟩ := pr2
        obtain ⟨hkid, hst2⟩ := insertSshKey_ok env st1 _ _ _ kid2 st2 hins
        dsimp only
        cases hlink : addSshKeyToUser env st2 kid2 u1.id with
        | error e =>
          refine ⟨some u1, _, rfl, ?_⟩
          apply linkIntegrity_transport st _ _ _ hint
          · rw [hst2, hpst]
            rfl
          · intro u hu
            rw [hst2, hpst]
            exact List.mem_append.mpr (Or.inl hu)
        | ok st3 =>
          have hst3 := addSshKeyToUser_ok env st2 kid2 u1.id st3 hlink
          refine ⟨some u1, st3, rfl, ?_⟩
          intro l hlmem
          rw [hst3, hst2, hpst] at hlmem ⊢
          dsimp only at hlmem ⊢
          rcases List.mem_append.mp hlmem with hold | hnew
          · obtain ⟨u, hum, hid⟩ := hint l hold
            exact ⟨u, List.mem_append.mpr (Or.inl hum), hid⟩
          · rw [List.mem_singleton.mp hnew]
            exact ⟨u1, List.mem_append.mpr (Or.inr (List.mem_singleton.mpr rfl)), rfl⟩

theorem identityAndGuest_wrapped_ok (env : Env) (p : ProjectRow) (g? : Option KCGroup)
    (pub : PubText) (st : St)
    (h5' : env.fingerprintQueryFails (getSshKeyFingerprint pub) = false)
    (h6 : ∀ uid, env.loadUserByIdFails uid = false)
    (hint : linkIntegrity st) :
    ∃ st', identityAndGuest env p g? pub st = Except.ok st' ∧ linkIntegrity st' := by
  obtain ⟨r, st1, hid, hint1⟩ := identityStep_wrapped_ok env p pub st h5' h6 hint
  refine ⟨guestStep env p r g? st1, ?_, ?_⟩
  · unfold identityAndGuest
    rw [hid]
  · obtain ⟨g1, g2, _, _⟩ := guestStep_state env p r g? st1
    apply linkIntegrity_transport st1 _ (by rw [g1]) _ hint1
    intro u hu
    rw [g2]
    exact hu

theorem processProject_wrapped_ok (env : Env) (p : ProjectRow) (st : St)
    (h1 : ∀ s, env.loadGroupFails s = false)
    (h2 : ∀ gid, env.updateGroupFails gid = false)
    (h3 : ∀ pid, env.projectUserQueryFails pid = false)
    (h4 : ∀ pid, env.writeBackFails pid = false)
    (h5 : ∀ f, env.fingerprintQueryFails f = false)
    (h6 : ∀ uid, env.loadUserByIdFails uid = false)
    (hint : linkIntegrity st) :
    ∃ st', processProject env p st = Except.ok st' ∧ linkIntegrity st' := by
  unfold processProject
  obtain ⟨st1, hgs⟩ := groupStep_wrapped env p (logLine st ("Processing " ++ p.name))
    (h1 _) h2
  have hint1 : linkIntegrity st1 := by
    rcases hgs with hgs | ⟨g, hgs⟩ <;>
    · obtain ⟨d1, d2, _, _, _⟩ := groupStep_state env p _ st1 _ hgs
      exact linkIntegrity_transport _ _ (by rw [d1]; rfl) (fun u hu => by rw [d2]; exact hu) hint
  rcases hgs with hgs | ⟨g, hgs⟩
  · rw [hgs]
    exact ⟨st1, rfl, hint1⟩
  · rw [hgs]
    simp only [h3 p.id, Bool.false_eq_true, if_false]
    obtain ⟨st2, hop⟩ := ownerPhase_some_ok env g (projectUserEmails st1.db p.id) st1
    rw [hop]
    dsimp only
    obtain ⟨o1, o2, _, _, _, _, _, _⟩ := ownerPhase_ok env (some g) _ st1 st2 hop
    have hint2 : linkIntegrity st2 :=
      linkIntegrity_transport _ _ (by rw [o1]) (fun u hu => by rw [o2]; exact hu) hint1
    cases hkp : resolveKeyPair env st2 p.privateKey with
    | error e =>
      exact ⟨_, rfl, hint2⟩
    | ok pr =>
      obtain ⟨⟨priv, pub⟩, st3⟩ := pr
      dsimp only
      have hint3 : linkIntegrity st3 := by
        unfold resolveKeyPair at hkp
        rcases hpk : p.privateKey with _ | t
        · rw [hpk] at hkp
          dsimp only at hkp
          have : _ = st3 := congrArg Prod.snd (Except.ok.inj hkp)
          rw [← this]
          exact linkIntegrity_transport _ _ rfl (fun u hu => hu) hint2
        · rw [hpk] at hkp
          dsimp only at hkp
          split at hkp
          · have : _ = st3 := congrArg Prod.snd (Except.ok.inj hkp)
            rw [← this]
            exact linkIntegrity_transport _ _ rfl (fun u hu => hu) hint2
          · split at hkp
            · have : _ = st3 := congrArg Prod.snd (Except.ok.inj hkp)
              rw [← this]
              exact linkIntegrity_transport _ _ rfl (fun u hu => hu) hint2
            · exact Except.noConfusion hkp
      cases htr : jsTruthy p.privateKey with
      | true =>
        rw [if_pos rfl]
        exact identityAndGuest_wrapped_ok env p (some g) pub st3 (h5 _) h6 hint3
      | false =>
        rw [if_neg Bool.false_ne_true]
        simp only [h4 p.id, Bool.false_eq_true, if_false]
        apply identityAndGuest_wrapped_ok env p (some g) pub _ (h5 _) h6
        exact linkIntegrity_transport st3 _ rfl (fun u hu => hu) hint3

theorem runLoop_wrapped_ok (env : Env)
    (h1 : ∀ s, env.loadGroupFails s = false)
    (h2 : ∀ gid, env.updateGroupFails gid = false)
    (h3 : ∀ pid, env.projectUserQueryFails pid = false)
    (h4 : ∀ pid, env.writeBackFails pid = false)
    (h5 : ∀ f, env.fingerprintQueryFails f = false)
    (h6 : ∀ uid, env.loadUserByIdFails uid = false) :
    ∀ (rows : List ProjectRow) (st : St), linkIntegrity st →
      ∃ st', runLoop env rows st = Except.ok st' := by
  intro rows
  induction rows with
  | nil => exact fun st _ => ⟨st, rfl⟩
  | cons p rows ih =>
    intro st hint
    obtain ⟨st1, hp, hint1⟩ := processProject_wrapped_ok env p st h1 h2 h3 h4 h5 h6 hint
    obtain ⟨st2, hrest⟩ := ih st1 hint1
    refine ⟨st2, ?_⟩
    unfold runLoop
    rw [hp]
    exact hrest

/-- C2 amended: failures raised inside the script's try/catch blocks (group
create, user lookup by username, owner and guest membership adds, identity
creation with key insert and link) never escape a project's iteration: as
long as the unwrapped relational operations (project-user query, key
write-back, fingerprint lookup) and the unwrapped identity load-by-id cannot
fail, the generic group load/update path is sound, and fingerprint links
refer to existing identities, the whole run completes over every project for
arbitrary failure behavior of all the wrapped operations. -/
theorem c2_wrapped_failures_contained (env : Env) (st : St)
    (h1 : ∀ s, env.loadGroupFails s = false)
    (h2 : ∀ gid, env.updateGroupFails gid = false)
    (h3 : ∀ pid, env.projectUserQueryFails pid = false)
    (h4 : ∀ pid, env.writeBackFails pid = false)
    (h5 : ∀ f, env.fingerprintQueryFails f = false)
    (h6 : ∀ uid, env.loadUserByIdFails uid = false)
    (hint : linkIntegrity st) :
    ∃ st', runMigration env st = Except.ok st' := by
  unfold runMigration
  have hint0 : linkIntegrity { st with db := backfillCustomerKeys st.db } := by
    apply linkIntegrity_transport st _ rfl (fun u hu => hu) hint
  obtain ⟨st', hrun⟩ := runLoop_wrapped_ok env h1 h2 h3 h4 h5 h6
    (backfillCustomerKeys st.db).projects { st with db := backfillCustomerKeys st.db } hint0
  dsimp only
  rw [hrun]
  exact ⟨_, rfl⟩

def c2WEnv : Env := { okEnv with
  addGroupFails := fun _ => true,
  loadUserByUsernameFails := fun _ => true,
  addUserToGroupFails := fun _ _ _ => true,
  addUserFails := fun _ => true,
  insertSshKeyFails := fun _ => true,
  addSshKeyToUserFails := fun _ _ => true }

/-- Witness for the amended C2: with every wrapped operation forced to fail,
the run still completes over both projects. -/
theorem c2_wrapped_failures_contained_witness :
    (∀ l ∈ c2CexSt0.db.userSshKeys, ∃ u ∈ c2CexSt0.kc.users, u.id = l.usid) ∧
    (∃ st', runMigration c2WEnv c2CexSt0 = Except.ok st') :=
  ⟨fun l hl => absurd hl (List.not_mem_nil l),
    c2_wrapped_failures_contained c2WEnv c2CexSt0 (fun _ => rfl) (fun _ => rfl)
      (fun _ => rfl) (fun _ => rfl) (fun _ => rfl) (fun _ => rfl)
      (fun l hl => absurd hl (List.not_mem_nil l))⟩

/-! ## Claim C1, amended: machinery -/

/-- All failure switches off: every external call succeeds. -/
def envOk (env : Env) : Prop :=
  (∀ s, env.loadGroupFails s = false) ∧ (∀ gid, env.updateGroupFails gid = false) ∧
  (∀ s, env.addGroupFails s = false) ∧ (∀ s, env.loadUserByUsernameFails s = false) ∧
  (∀ a b r, env.addUserToGroupFails a b r = false) ∧ (∀ s, env.addUserFails s = false) ∧
  (∀ i, env.loadUserByIdFails i = false) ∧ (∀ i, env.projectUserQueryFails i = false) ∧
  (∀ i, env.writeBackFails i = false) ∧ (∀ f, env.fingerprintQueryFails f = false) ∧
  (∀ f, env.insertSshKeyFails f = false) ∧ (∀ a b, env.addSshKeyToUserFails a b = false)

def projDistinct (rows : List ProjectRow) : Prop :=
  rows.Pairwise (fun a b => a.id ≠ b.id ∧ a.name ≠ b.name)

def noSquat (users : List KCUser) (rows : List ProjectRow) : Prop :=
  ∀ u ∈ users, ∀ p ∈ rows, u.username ≠ "default-user@" ++ p.name

def emailsClean (dbUsers : List DbUserRow) (rows : List ProjectRow) : Prop :=
  ∀ du ∈ dbUsers, ∀ e, du.email = some e → ∀ p ∈ rows, e ≠ "default-user@" ++ p.name

def freshIds (st : St) : Prop :=
  (∀ g ∈ st.kc.groups, g.id < st.kc.nextGroupId) ∧
  (∀ u ∈ st.kc.users, u.id < st.kc.nextUserId) ∧
  (∀ k ∈ st.db.sshKeys, k.id < st.db.nextSshKeyId) ∧
  (∀ l ∈ st.db.userSshKeys, l.skid < st.db.nextSshKeyId)

def groupIdsNodup (st : St) : Prop := (st.kc.groups.map (fun g => g.id)).Nodup

/-- Well-formed initial data for the idempotence theorem. -/
def WF (st : St) : Prop :=
  projDistinct st.db.projects ∧ noSquat st.kc.users st.db.projects ∧
  emailsClean st.db.users st.db.projects ∧ freshIds st ∧ groupIdsNodup st ∧
  linkIntegrity st

def groupNameFind (st : St) (p : ProjectRow) : Option KCGroup :=
  st.kc.groups.find? (fun g => g.name == projectGroupNameOf p)

def ownersDone (st : St) (p : ProjectRow) (g : KCGroup) : Prop :=
  ∀ e? ∈ projectUserEmails st.db p.id, ∀ e, e? = some e →
    ∀ u, st.kc.users.find? (fun v => v.username == e) = some u →
      (u.id, g.id, Role.owner) ∈ st.kc.memberships

def keyDone (st : St) (p : ProjectRow) (g : KCGroup) : Prop :=
  (∃ s, p.privateKey = some (PrivText.malformed s) ∧ s ≠ "") ∨
  (∃ k uid u, p.privateKey = some (PrivText.wellFormed k) ∧
    selectUserIdsBySshKeyFingerprint st.db
      (getSshKeyFingerprint (pubToString (toPublic k))) = some uid ∧
    st.kc.users.find? (fun v => v.id == uid) = some u ∧
    (u.id, g.id, Role.guest) ∈ st.kc.memberships)

/-- The stable configuration a project row reaches after a successful run:
its group carries merge-stable attributes, every resolvable project-user
email is an owner, and its key is either unparseable (and stays so) or well
formed with a fingerprint-bound guest identity. -/
def Done (st : St) (p : ProjectRow) : Prop :=
  ∃ g, groupNameFind st p = some g ∧
    mergedAttrs g.attributes p.id = g.attributes ∧
    ownersDone st p g ∧ keyDone st p g

theorem Done_transport (st st' : St) (hdb : st'.db = st.db) (hkc : st'.kc = st.kc)
    (p : ProjectRow) (h : Done st p) : Done st' p := by
  unfold Done groupNameFind ownersDone keyDone at h ⊢
  rw [hdb, hkc]
  exact h

theorem mergedAttrs_fresh (pid : Nat) : mergedAttrs (freshAttrs pid) pid = freshAttrs pid := rfl

/-! ### Second run: every step is a no-op -/

theorem updateGroup_noop (env : Env) (st : St) (g : KCGroup)
    (hflag : env.updateGroupFails g.id = false)
    (hmem : g ∈ st.kc.groups)
    (hnodup : groupIdsNodup st) :
    updateGroup env st g.id g.name g.attributes = Except.ok (g, st) := by
  unfold updateGroup
  simp only [hflag, Bool.false_eq_true, if_false]
  have hmap : st.kc.groups.map (fun g' =>
      if g'.id == g.id then { g' with name := g.name, attributes := g.attributes } else g') =
      st.kc.groups := by
    apply map_id_of_mem
    intro a ha
    by_cases hid : a.id = g.id
    · have hae : a = g := List.inj_on_of_nodup_map hnodup ha hmem hid
      have hb : (a.id == g.id) = true := by simpa using hid
      rw [hb, if_pos rfl, hae]
    · have hb : (a.id == g.id) = false := beq_eq_false_iff_ne.mpr hid
      simp [hb]
  rw [hmap]

theorem groupStep_noop (env : Env) (p : ProjectRow) (st : St) (g : KCGroup)
    (h1 : env.loadGroupFails (projectGroupNameOf p) = false)
    (h2 : ∀ gid, env.updateGroupFails gid = false)
    (hfindg : st.kc.groups.find? (fun x => x.name == projectGroupNameOf p) = some g)
    (hattrs : mergedAttrs g.attributes p.id = g.attributes)
    (hnodup : groupIdsNodup st) :
    groupStep env p st = (st, some (some g)) := by
  have hload : loadGroupByName env st (projectGroupNameOf p) = Except.ok g := by
    unfold loadGroupByName
    simp only [h1, Bool.false_eq_true, if_false]
    rw [hfindg]
  have hup : updateGroup env st g.id g.name (mergedAttrs g.attributes p.id) =
      Except.ok (g, st) := by
    rw [hattrs]
    exact updateGroup_noop env st g (h2 g.id) (List.mem_of_find?_eq_some hfindg) hnodup
  unfold groupStep
  rw [hload]
  dsimp only
  rw [hup]

theorem ownerPhase_noop (env : Env) (g : KCGroup)
    (h4 : ∀ s, env.loadUserByUsernameFails s = false)
    (h5 : ∀ a b r, env.addUserToGroupFails a b r = false) :
    ∀ (es : List (Option String)) (st : St),
      (∀ e? ∈ es, ∀ e, e? = some e → ∀ u,
        st.kc.users.find? (fun v => v.username == e) = some u →
        (u.id, g.id, Role.owner) ∈ st.kc.memberships) →
      ∃ st', ownerPhase env (some g) es st = Except.ok st' ∧
        st'.db = st.db ∧ st'.kc = st.kc ∧ st'.genCounter = st.genCounter := by
  intro es
  induction es with
  | nil => exact fun st _ => ⟨st, rfl, rfl, rfl, rfl⟩
  | cons e? es ih =>
    intro st hmain
    have htail : ∀ e2 ∈ es, ∀ e, e2 = some e → ∀ u,
        st.kc.users.find? (fun v => v.username == e) = some u →
        (u.id, g.id, Role.owner) ∈ st.kc.memberships :=
      fun e2 he2 e he u hf => hmain e2 (List.mem_cons_of_mem _ he2) e he u hf
    cases e? with
    | none =>
      have hstep : addProjectUser env (some g) none st =
          Except.ok (logLine st ("Could not add user (" ++ emailText none ++
            ") to group (" ++ g.name ++ "): " ++
            MErr.message (MErr.userNotFound "undefined"))) := rfl
      obtain ⟨st', hrest, hdb, hkc, hgc⟩ := ih (logLine st ("Could not add user (" ++
        emailText none ++ ") to group (" ++ g.name ++ "): " ++
        MErr.message (MErr.userNotFound "undefined"))) htail
      refine ⟨st', ?_, hdb, hkc, hgc⟩
      unfold ownerPhase
      rw [hstep]
      exact hrest
    | some e =>
      cases hfind : st.kc.users.find? (fun v => v.username == e) with
      | none =>
        have hload : loadUserByUsername env st (some e) =
            Except.error (MErr.userNotFound ("User not found: " ++ e)) := by
          unfold loadUserByUsername
          simp only [h4 e, Bool.false_eq_true, if_false]
          rw [hfind]
        have hstep : addProjectUser env (some g) (some e) st =
            Except.ok (logLine st ("Could not add user (" ++ emailText (some e) ++
              ") to group (" ++ g.name ++ "): " ++
              MErr.message (MErr.userNotFound ("User not found: " ++ e)))) := by
          unfold addProjectUser
          rw [hload]
        obtain ⟨st', hrest, hdb, hkc, hgc⟩ := ih (logLine st ("Could not add user (" ++
          emailText (some e) ++ ") to group (" ++ g.name ++ "): " ++
          MErr.message (MErr.userNotFound ("User not found: " ++ e)))) htail
        refine ⟨st', ?_, hdb, hkc, hgc⟩
        unfold ownerPhase
        rw [hstep]
        exact hrest
      | some u =>
        have hmem : (u.id, g.id, Role.owner) ∈ st.kc.memberships :=
          hmain (some e) (List.mem_cons_self _ _) e rfl u hfind
        have hload : loadUserByUsername env st (some e) = Except.ok u := by
          unfold loadUserByUsername
          simp only [h4 e, Bool.false_eq_true, if_false]
          rw [hfind]
        have hadd : addUserToGroup env st (some u) (some g) Role.owner = Except.ok st := by
          have hred : addUserToGroup env st (some u) (some g) Role.owner =
              (if env.addUserToGroupFails u.id g.id Role.owner then
                Except.error (MErr.generic "member add failed")
              else if (u.id, g.id, Role.owner) ∈ st.kc.memberships then Except.ok st
              else Except.ok { st with kc := { st.kc with
                memberships := st.kc.memberships ++ [(u.id, g.id, Role.owner)] } }) := rfl
          rw [hred]
          simp only [h5 u.id g.id Role.owner, Bool.false_eq_true, if_false]
          rw [if_pos hmem]
        have hstep : addProjectUser env (some g) (some e) st = Except.ok st := by
          unfold addProjectUser
          rw [hload]
          dsimp only
          rw [hadd]
        obtain ⟨st', hrest, hdb, hkc, hgc⟩ := ih st htail
        refine ⟨st', ?_, hdb, hkc, hgc⟩
        unfold ownerPhase
        rw [hstep]
        exact hrest

theorem identityAndGuest_noop (env : Env) (p : ProjectRow) (g : KCGroup) (pub : PubText)
    (st : St) (uid : Nat) (u : KCUser)
    (hq : env.fingerprintQueryFails (getSshKeyFingerprint pub) = false)
    (h6 : ∀ i, env.loadUserByIdFails i = false)
    (h5 : ∀ a b r, env.addUserToGroupFails a b r = false)
    (hfp : selectUserIdsBySshKeyFingerprint st.db (getSshKeyFingerprint pub) = some uid)
    (hfind : st.kc.users.find? (fun v => v.id == uid) = some u)
    (hmem : (u.id, g.id, Role.guest) ∈ st.kc.memberships) :
    identityAndGuest env p (some g) pub st = Except.ok st := by
  have hload : loadUserById env st uid = Except.ok u := by
    unfold loadUserById
    simp only [h6 uid, Bool.false_eq_true, if_false]
    rw [hfind]
  have hid : identityStep env p pub st = Except.ok (some u, st) := by
    unfold identityStep
    simp only [hq, Bool.false_eq_true, if_false]
    rw [hfp]
    dsimp only
    rw [hload]
  have hadd : addUserToGroup env st (some u) (some g) Role.guest = Except.ok st := by
    have hred : addUserToGroup env st (some u) (some g) Role.guest =
        (if env.addUserToGroupFails u.id g.id Role.guest then
          Except.error (MErr.generic "member add failed")
        else if (u.id, g.id, Role.guest) ∈ st.kc.memberships then Except.ok st
        else Except.ok { st with kc := { st.kc with
          memberships := st.kc.memberships ++ [(u.id, g.id, Role.guest)] } }) := rfl
    rw [hred]
    simp only [h5 u.id g.id Role.guest, Bool.false_eq_true, if_false]
    rw [if_pos hmem]
  unfold identityAndGuest
  rw [hid]
  dsimp only
  unfold guestStep
  rw [hadd]

theorem processProject_noop (env : Env) (p : ProjectRow) (st : St)
    (henv : envOk env) (hnodup : groupIdsNodup st) (hd : Done st p) :
    ∃ st', processProject env p st = Except.ok st' ∧
      st'.db = st.db ∧ st'.kc = st.kc ∧ st'.genCounter = st.genCounter := by
  obtain ⟨g, hfindg, hattrs, howners, hkey⟩ := hd
  obtain ⟨e1, e2, e3, e4, e5, e6, e7, e8, e9, e10, e11, e12⟩ := henv
  have hgs : groupStep env p (logLine st ("Processing " ++ p.name)) =
      (logLine st ("Processing " ++ p.name), some (some g)) :=
    groupStep_noop env p _ g (e1 _) e2 hfindg hattrs hnodup
  obtain ⟨st2, hop, hdb2, hkc2, hgc2⟩ := ownerPhase_noop env g e4 e5
    (projectUserEmails (logLine st ("Processing " ++ p.name)).db p.id)
    (logLine st ("Processing " ++ p.name))
    (fun e? he? e he u hf => howners e? he? e he u hf)
  rcases hkey with ⟨s, hpk, hs⟩ | ⟨k, uid, u, hpk, hfp, hufind, hmem⟩
  · refine ⟨logLine (logLine st2 ("There was an error with the project (" ++ p.name ++
        ") privateKey: " ++ MErr.message (MErr.generic ("could not parse " ++ s))))
      ("Skipping adding default user with associated project public key for project " ++
        p.name), ?_, hdb2, hkc2, hgc2⟩
    unfold processProject
    rw [hgs]
    dsimp only
    simp only [e8 p.id, Bool.false_eq_true, if_false]
    rw [hop]
    dsimp only
    rw [hpk, resolveKeyPair_parse_malformed env st2 s hs]
  · refine ⟨st2, ?_, hdb2, hkc2, hgc2⟩
    unfold processProject
    rw [hgs]
    dsimp only
    simp only [e8 p.id, Bool.false_eq_true, if_false]
    rw [hop]
    dsimp only
    rw [hpk, resolveKeyPair_parse_wellFormed env st2 k]
    dsimp only
    rw [if_pos (show jsTruthy (some (PrivText.wellFormed k)) = true from rfl)]
    exact identityAndGuest_noop env p g _ st2 uid u (e10 _) e7 e5
      (by rw [hdb2]; exact hfp) (by rw [hkc2]; exact hufind) (by rw [hkc2]; exact hmem)

theorem runLoop_noop (env : Env) (henv : envOk env) :
    ∀ (rows : List ProjectRow) (st : St),
      groupIdsNodup st → (∀ p ∈ rows, Done st p) →
      ∃ st', runLoop env rows st = Except.ok st' ∧
        st'.db = st.db ∧ st'.kc = st.kc ∧ st'.genCounter = st.genCounter := by
  intro rows
  induction rows with
  | nil => exact fun st _ _ => ⟨st, rfl, rfl, rfl, rfl⟩
  | cons p rows ih =>
    intro st hnodup hall
    obtain ⟨st1, hp, hdb1, hkc1, hgc1⟩ := processProject_noop env p st henv hnodup
      (hall p (List.mem_cons_self _ _))
    have hnodup1 : groupIdsNodup st1 := by
      unfold groupIdsNodup
      rw [hkc1]
      exact hnodup
    have hall1 : ∀ q ∈ rows, Done st1 q := fun q hq =>
      Done_transport st st1 hdb1 hkc1 q (hall q (List.mem_cons_of_mem _ hq))
    obtain ⟨st2, hrest, hdb2, hkc2, hgc2⟩ := ih st1 hnodup1 hall1
    refine ⟨st2, ?_, hdb2.trans hdb1, hkc2.trans hkc1, hgc2.trans hgc1⟩
    unfold runLoop
    rw [hp]
    exact hrest

theorem backfill_noop (db : DB) (h : ∀ p ∈ db.projects, p.privateKey ≠ none) :
    backfillCustomerKeys db = db := by
  unfold backfillCustomerKeys
  have hmap : db.projects.map (fun p =>
      if p.privateKey = none then
        match db.customers.find? (fun c => c.id == p.customer) with
        | some c => { p with privateKey := c.privateKey }
        | none => p
      else p) = db.projects := by
    apply map_id_of_mem
    intro a ha
    rw [if_neg (h a ha)]
  rw [hmap]

theorem Done_key_some (st : St) (p : ProjectRow) (g : KCGroup) (h : keyDone st p g) :
    p.privateKey ≠ none := by
  rcases h with ⟨s, hpk, _⟩ | ⟨k, _, _, hpk, _, _, _⟩ <;> rw [hpk] <;> exact Option.noConfusion

/-- After a state where every project row is done, the whole migration is a
no-op on both stores. -/
theorem runMigration_noop (env : Env) (st : St) (henv : envOk env)
    (hnodup : groupIdsNodup st) (hall : ∀ p ∈ st.db.projects, Done st p) :
    ∃ st', runMigration env st = Except.ok st' ∧
      st'.db = st.db ∧ st'.kc = st.kc := by
  have hkeys : ∀ p ∈ st.db.projects, p.privateKey ≠ none := by
    intro p hp
    obtain ⟨g, _, _, _, hkey⟩ := hall p hp
    exact Done_key_some st p g hkey
  have hbf : backfillCustomerKeys st.db = st.db := backfill_noop st.db hkeys
  have hstbf : { st with db := backfillCustomerKeys st.db } = st := by
    rw [hbf]
  obtain ⟨st', hrun, hdb, hkc, _⟩ := runLoop_noop env henv
    (backfillCustomerKeys st.db).projects { st with db := backfillCustomerKeys st.db }
    (by rw [hstbf]; exact hnodup)
    (by rw [hstbf, hbf]; exact hall)
  refine ⟨logLine st' "Migration completed", ?_, ?_, ?_⟩
  · unfold runMigration
    dsimp only
    rw [hrun]
  · show st'.db = st.db
    rw [hdb, hstbf]
  · show st'.kc = st.kc
    rw [hkc, hstbf]

/-! ### First run: each project reaches its Done configuration -/

theorem map_congr_mem {α β : Type} (l : List α) (f g : α → β)
    (h : ∀ a ∈ l, f a = g a) : l.map f = l.map g := by
  induction l with
  | nil => rfl
  | cons a t ih =>
    simp only [List.map_cons, h a (List.mem_cons_self a t),
      ih (fun b hb => h b (List.mem_cons_of_mem a hb))]

theorem find?_congr_mem {α : Type} (l : List α) (p q : α → Bool)
    (h : ∀ a ∈ l, p a = q a) : l.find? p = l.find? q := by
  induction l with
  | nil => rfl
  | cons a t ih =>
    have ha := h a (List.mem_cons_self a t)
    cases hp : p a with
    | true =>
      rw [List.find?_cons_of_pos _ hp, List.find?_cons_of_pos _ (ha ▸ hp)]
    | false =>
      rw [List.find?_cons_of_neg _ (by simp [hp]), List.find?_cons_of_neg (p := q) _
        (by simp [← ha, hp])]
      exact ih (fun b hb => h b (List.mem_cons_of_mem a hb))

theorem proj_eq_of_mem_id (rows : List ProjectRow) (h : projDistinct rows)
    (a b : ProjectRow) (ha : a ∈ rows) (hb : b ∈ rows) (hid : a.id = b.id) : a = b := by
  by_contra hne
  have hr := List.Pairwise.forall
    (R := fun a b : ProjectRow => a.id ≠ b.id ∧ a.name ≠ b.name)
    (fun x y hxy => ⟨Ne.symm hxy.1, Ne.symm hxy.2⟩) h ha hb hne
  exact hr.1 hid

theorem proj_name_ne_of_id_ne (rows : List ProjectRow) (h : projDistinct rows)
    (a b : ProjectRow) (ha : a ∈ rows) (hb : b ∈ rows) (hid : a.id ≠ b.id) :
    a.name ≠ b.name := by
  have hne : a ≠ b := fun he => hid (he ▸ rfl)
  have hr := List.Pairwise.forall
    (R := fun a b : ProjectRow => a.id ≠ b.id ∧ a.name ≠ b.name)
    (fun x y hxy => ⟨Ne.symm hxy.1, Ne.symm hxy.2⟩) h ha hb hne
  exact hr.2

def updGroupFn (gid : Nat) (gname : String) (attrs : Attrs) (g : KCGroup) : KCGroup :=
  if g.id == gid then { g with name := gname, attributes := attrs } else g

theorem updGroupFn_id (gid : Nat) (gname : String) (attrs : Attrs) (a : KCGroup) :
    (updGroupFn gid gname attrs a).id = a.id := by
  unfold updGroupFn
  by_cases hid : a.id = gid
  · rw [if_pos (by simpa using hid)]
  · rw [if_neg (by simpa using hid)]

theorem groupStep_envOk (env : Env) (p : ProjectRow) (st : St)
    (h1 : env.loadGroupFails (projectGroupNameOf p) = false)
    (h2 : ∀ gid, env.updateGroupFails gid = false)
    (h3 : ∀ s, env.addGroupFails s = false)
    (hfreshG : ∀ g ∈ st.kc.groups, g.id < st.kc.nextGroupId)
    (hnodup : groupIdsNodup st) :
    ∃ g stG, groupStep env p st = (stG, some (some g)) ∧
      stG.db = st.db ∧ stG.genCounter = st.genCounter ∧
      stG.kc.users = st.kc.users ∧ stG.kc.memberships = st.kc.memberships ∧
      stG.kc.nextUserId = st.kc.nextUserId ∧
      stG.kc.groups.find? (fun x => x.name == projectGroupNameOf p) = some g ∧
      mergedAttrs g.attributes p.id = g.attributes ∧
      (∀ n, n ≠ projectGroupNameOf p →
        stG.kc.groups.find? (fun x => x.name == n) =
          st.kc.groups.find? (fun x => x.name == n)) ∧
      (∀ g' ∈ stG.kc.groups, g'.id < stG.kc.nextGroupId) ∧
      (stG.kc.groups.map (fun x => x.id)).Nodup := by
  cases hf : st.kc.groups.find? (fun x => x.name == projectGroupNameOf p) with
  | some g0 =>
    have hg0mem : g0 ∈ st.kc.groups := List.mem_of_find?_eq_some hf
    have hg0name : g0.name = projectGroupNameOf p := by
      have := List.find?_some hf
      simpa using this
    have hload : loadGroupByName env st (projectGroupNameOf p) = Except.ok g0 := by
      unfold loadGroupByName
      simp only [h1, Bool.false_eq_true, if_false]
      rw [hf]
    have hup : updateGroup env st g0.id g0.name (mergedAttrs g0.attributes p.id) = Except.ok ({ id := g0.id, name := g0.name, attributes := mergedAttrs g0.attributes p.id }, { st with kc := { st.kc with groups := st.kc.groups.map (updGroupFn g0.id g0.name (mergedAttrs g0.attributes p.id)) } }) := by
      unfold updateGroup updGroupFn
      simp only [h2 g0.id, Bool.false_eq_true, if_false]
    have hgs : groupStep env p st = ({ st with kc := { st.kc with groups := st.kc.groups.map (updGroupFn g0.id g0.name (mergedAttrs g0.attributes p.id)) } }, some (some { id := g0.id, name := g0.name, attributes := mergedAttrs g0.attributes p.id })) := by
      unfold groupStep
      rw [hload]
      dsimp only
      rw [hup]
    have hnamepres : ∀ a ∈ st.kc.groups, (updGroupFn g0.id g0.name (mergedAttrs g0.attributes p.id) a).name = a.name := by
      intro a ha
      unfold updGroupFn
      by_cases hid : a.id = g0.id
      · have hae : a = g0 := List.inj_on_of_nodup_map hnodup ha hg0mem hid
        rw [if_pos (by simpa using hid)]
        rw [hae]
      · rw [if_neg (by simpa using hid)]
    have hpredpres : ∀ n : String, ∀ a ∈ st.kc.groups, ((updGroupFn g0.id g0.name (mergedAttrs g0.attributes p.id) a).name == n) = (a.name == n) := by
      intro n a ha
      rw [hnamepres a ha]
    refine ⟨_, _, hgs, rfl, rfl, rfl, rfl, rfl, ?_, mergedAttrs_idem g0.attributes p.id, ?_, ?_, ?_⟩
    · show (st.kc.groups.map (updGroupFn g0.id g0.name (mergedAttrs g0.attributes p.id))).find? (fun x => x.name == projectGroupNameOf p) = _
      rw [find?_map_pred _ _ _ (fun a ha => hpredpres (projectGroupNameOf p) a ha)]
      rw [hf]
      simp only [Option.map_some']
      unfold updGroupFn
      rw [if_pos (by simp)]
    · intro n hn
      show (st.kc.groups.map (updGroupFn g0.id g0.name (mergedAttrs g0.attributes p.id))).find? (fun x => x.name == n) = _
      rw [find?_map_pred _ _ _ (fun a ha => hpredpres n a ha)]
      cases hfn : st.kc.groups.find? (fun x => x.name == n) with
      | none => rfl
      | some gr =>
        simp only [Option.map_some']
        have hgrname : gr.name = n := by
          have := List.find?_some hfn
          simpa using this
        have hgrne : gr.id ≠ g0.id := by
          intro hide
          have : gr = g0 :=
            List.inj_on_of_nodup_map hnodup (List.mem_of_find?_eq_some hfn) hg0mem hide
          rw [this] at hgrname
          exact hn (hgrname ▸ hg0name)
        unfold updGroupFn
        rw [if_neg (by simpa using hgrne)]
    · intro g' hg'
      rcases List.mem_map.mp hg' with ⟨a, ha, hfa⟩
      show g'.id < st.kc.nextGroupId
      rw [← hfa, updGroupFn_id]
      exact hfreshG a ha
    · show ((st.kc.groups.map (updGroupFn g0.id g0.name (mergedAttrs g0.attributes p.id))).map (fun x => x.id)).Nodup
      rw [List.map_map]
      have hmc : st.kc.groups.map ((fun x : KCGroup => x.id) ∘ updGroupFn g0.id g0.name (mergedAttrs g0.attributes p.id)) = st.kc.groups.map (fun x : KCGroup => x.id) :=
        map_congr_mem _ _ _ (fun a _ => updGroupFn_id g0.id g0.name (mergedAttrs g0.attributes p.id) a)
      rw [hmc]
      exact hnodup
  | none =>
    have hload : loadGroupByName env st (projectGroupNameOf p) =
        Except.error (MErr.groupNotFound ("Group not found: " ++ projectGroupNameOf p)) := by
      unfold loadGroupByName
      simp only [h1, Bool.false_eq_true, if_false]
      rw [hf]
    have hadd : addGroup env st (projectGroupNameOf p) (freshAttrs p.id) = Except.ok ({ id := st.kc.nextGroupId, name := projectGroupNameOf p, attributes := freshAttrs p.id }, { st with kc := { st.kc with groups := st.kc.groups ++ [{ id := st.kc.nextGroupId, name := projectGroupNameOf p, attributes := freshAttrs p.id }], nextGroupId := st.kc.nextGroupId + 1 } }) := by
      unfold addGroup
      simp only [h3, Bool.false_eq_true, if_false]
    have hgs : groupStep env p st = ({ st with kc := { st.kc with groups := st.kc.groups ++ [{ id := st.kc.nextGroupId, name := projectGroupNameOf p, attributes := freshAttrs p.id }], nextGroupId := st.kc.nextGroupId + 1 } }, some (some { id := st.kc.nextGroupId, name := projectGroupNameOf p, attributes := freshAttrs p.id })) := by
      unfold groupStep
      rw [hload]
      dsimp only
      rw [hadd]
    refine ⟨_, _, hgs, rfl, rfl, rfl, rfl, rfl, ?_, mergedAttrs_fresh p.id, ?_, ?_, ?_⟩
    · show (st.kc.groups ++ _).find? _ = _
      rw [find?_append_none _ hf, List.find?_cons_of_pos _ (by simp)]
    · intro n hn
      show (st.kc.groups ++ _).find? _ = _
      cases hfn : st.kc.groups.find? (fun x => x.name == n) with
      | some gr => rw [find?_append_some _ hfn]
      | none =>
        rw [find?_append_none _ hfn]
        have hb : (projectGroupNameOf p == n) = false :=
          beq_eq_false_iff_ne.mpr (fun he => hn he.symm)
        rw [List.find?_cons_of_neg _ (by simp [hb]), List.find?_nil]
    · intro g' hg'
      rcases List.mem_append.mp hg' with ho | hn
      · exact Nat.lt_trans (hfreshG g' ho) (Nat.lt_succ_self _)
      · rw [List.mem_singleton.mp hn]
        exact Nat.lt_succ_self _
    · show ((st.kc.groups ++ _).map (fun x => x.id)).Nodup
      rw [List.map_append]
      apply List.Nodup.append hnodup (List.nodup_singleton _)
      intro a ha hb
      rw [List.mem_singleton.mp hb] at ha
      rcases List.mem_map.mp ha with ⟨g', hg', hid⟩
      have := hfreshG g' hg'
      rw [hid] at this
      exact Nat.lt_irrefl _ this

theorem addProjectUser_establishes (env : Env) (g : KCGroup) (e? : Option String) (st : St)
    (h4 : ∀ s, env.loadUserByUsernameFails s = false)
    (h5 : ∀ a b r, env.addUserToGroupFails a b r = false) :
    ∃ st', addProjectUser env (some g) e? st = Except.ok st' ∧
      ∀ e, e? = some e → ∀ u,
        st.kc.users.find? (fun v => v.username == e) = some u →
        (u.id, g.id, Role.owner) ∈ st'.kc.memberships := by
  cases e? with
  | none => exact ⟨_, rfl, fun e he => Option.noConfusion he⟩
  | some e =>
    cases hf : st.kc.users.find? (fun v => v.username == e) with
    | none =>
      have hl : loadUserByUsername env st (some e) =
          Except.error (MErr.userNotFound ("User not found: " ++ e)) := by
        unfold loadUserByUsername
        simp only [h4 e, Bool.false_eq_true, if_false]
        rw [hf]
      have hred : addProjectUser env (some g) (some e) st =
          Except.ok (logLine st ("Could not add user (" ++ emailText (some e) ++
            ") to group (" ++ g.name ++ "): " ++
            (MErr.userNotFound ("User not found: " ++ e)).message)) := by
        unfold addProjectUser
        rw [hl]
      refine ⟨_, hred, ?_⟩
      intro e' he' u hu
      have hee : e = e' := Option.some.inj he'
      subst hee
      rw [hf] at hu
      exact Option.noConfusion hu
    | some u =>
      have hl : loadUserByUsername env st (some e) = Except.ok u := by
        unfold loadUserByUsername
        simp only [h4 e, Bool.false_eq_true, if_false]
        rw [hf]
      by_cases hmem : (u.id, g.id, Role.owner) ∈ st.kc.memberships
      · have ha : addUserToGroup env st (some u) (some g) Role.owner = Except.ok st := by
          unfold addUserToGroup
          simp only [h5 u.id g.id Role.owner, Bool.false_eq_true, if_false]
          rw [if_pos hmem]
        have hred : addProjectUser env (some g) (some e) st = Except.ok st := by
          unfold addProjectUser
          rw [hl]
          dsimp only
          rw [ha]
        refine ⟨st, hred, ?_⟩
        intro e' he' u' hu'
        have hee : e = e' := Option.some.inj he'
        subst hee
        rw [hf] at hu'
        rw [← Option.some.inj hu']
        exact hmem
      · have ha : addUserToGroup env st (some u) (some g) Role.owner =
            Except.ok { st with kc := { st.kc with
              memberships := st.kc.memberships ++ [(u.id, g.id, Role.owner)] } } := by
          unfold addUserToGroup
          simp only [h5 u.id g.id Role.owner, Bool.false_eq_true, if_false]
          rw [if_neg hmem]
        have hred : addProjectUser env (some g) (some e) st =
            Except.ok { st with kc := { st.kc with
              memberships := st.kc.memberships ++ [(u.id, g.id, Role.owner)] } } := by
          unfold addProjectUser
          rw [hl]
          dsimp only
          rw [ha]
        refine ⟨_, hred, ?_⟩
        intro e' he' u' hu'
        have hee : e = e' := Option.some.inj he'
        subst hee
        rw [hf] at hu'
        rw [← Option.some.inj hu']
        exact List.mem_append_right _ (List.mem_singleton_self _)

theorem ownerPhase_establishes (env : Env) (g : KCGroup)
    (h4 : ∀ s, env.loadUserByUsernameFails s = false)
    (h5 : ∀ a b r, env.addUserToGroupFails a b r = false) :
    ∀ (es : List (Option String)) (st : St),
      ∃ st', ownerPhase env (some g) es st = Except.ok st' ∧
        ∀ e? ∈ es, ∀ e, e? = some e → ∀ u,
          st.kc.users.find? (fun v => v.username == e) = some u →
          (u.id, g.id, Role.owner) ∈ st'.kc.memberships := by
  intro es
  induction es with
  | nil => exact fun st => ⟨st, rfl, fun e? he => absurd he (List.not_mem_nil e?)⟩
  | cons e0 es ih =>
    intro st
    obtain ⟨st2, h2, hm2⟩ := addProjectUser_establishes env g e0 st h4 h5
    obtain ⟨st3, h3, hm3⟩ := ih st2
    obtain ⟨hdb2, hu2, hg2, hgen2, hnu2, hng2, _⟩ := addProjectUser_ok env (some g) e0 st st2 h2
    obtain ⟨_, _, _, _, _, _, _, hsub3⟩ := ownerPhase_ok env (some g) es st2 st3 h3
    refine ⟨st3, ?_, ?_⟩
    · unfold ownerPhase
      rw [h2]
      exact h3
    · intro e? he e he' u hu
      rcases List.mem_cons.mp he with h0 | htail
      · exact hsub3 _ (hm2 e (h0 ▸ he') u hu)
      · exact hm3 e? htail e he' u (by rw [hu2]; exact hu)

/-! ## Claim C3 -/

theorem fpLookup_after_insert (db db' : DB) (fp uid kid : Nat) (row : SshKeyRow)
    (hkeys : db'.sshKeys = db.sshKeys ++ [row])
    (hlinks : db'.userSshKeys = db.userSshKeys ++ [{ usid := uid, skid := kid }])
    (hrowid : row.id = kid) (hrowfp : row.keyFingerprint = fp)
    (hnone : selectUserIdsBySshKeyFingerprint db fp = none)
    (hfreshKey : ∀ k ∈ db.sshKeys, k.id ≠ kid)
    (hfreshL : ∀ l ∈ db.userSshKeys, l.skid ≠ kid) :
    selectUserIdsBySshKeyFingerprint db' fp = some uid := by
  unfold selectUserIdsBySshKeyFingerprint at hnone ⊢
  rw [hkeys, hlinks]
  have hfindOld : db.userSshKeys.find? (fun l =>
      (db.sshKeys.find? (fun k => k.id == l.skid)).any
        (fun k => k.keyFingerprint == fp)) = none := by
    cases hf : db.userSshKeys.find? (fun l =>
        (db.sshKeys.find? (fun k => k.id == l.skid)).any
          (fun k => k.keyFingerprint == fp)) with
    | none => rfl
    | some l => rw [hf] at hnone; exact Option.noConfusion hnone
  have hOldFalse := List.find?_eq_none.mp hfindOld
  have hprefix : db.userSshKeys.find? (fun l =>
      ((db.sshKeys ++ [row]).find? (fun k => k.id == l.skid)).any
        (fun k => k.keyFingerprint == fp)) = none := by
    rw [List.find?_eq_none]
    intro l hl
    cases hk : db.sshKeys.find? (fun k => k.id == l.skid) with
    | some k0 =>
      rw [find?_append_some _ hk]
      have := hOldFalse l hl
      rw [hk] at this
      exact this
    | none =>
      rw [find?_append_none _ hk]
      have hne : (row.id == l.skid) = false :=
        beq_eq_false_iff_ne.mpr (by rw [hrowid]; exact fun he => hfreshL l hl he.symm)
      rw [List.find?_cons_of_neg _ (by simp [hne]), List.find?_nil]
      simp
  rw [find?_append_none _ hprefix]
  have hkeysNone : db.sshKeys.find? (fun k => k.id == (kid : Nat)) = none := by
    rw [List.find?_eq_none]
    intro k hk
    simp only [beq_iff_eq]
    exact fun he => hfreshKey k hk he
  rw [List.find?_cons_of_pos]
  · rfl
  · show (((db.sshKeys ++ [row]).find? (fun k => k.id == kid)).any
      (fun k => k.keyFingerprint == fp)) = true
    rw [find?_append_none _ hkeysNone,
      List.find?_cons_of_pos _ (by simp [hrowid])]
    simp [hrowfp]

/-- C3 Identity resolution queries the fingerprint index before any creation:
when an identity is already bound to a key with the fingerprint, it is loaded
by id and reused with the state unchanged (no new identity, no new key
record); when none is bound, a new identity default-user@<project.name> is
created together with a key record tagged with the computed fingerprint and
linked to it, and a second project with the same public key then resolves to
that same identity with no further state change. -/
theorem c3_identity_binder (env : Env) (p q : ProjectRow) (pub : PubText) (st : St)
    (hq : env.fingerprintQueryFails (getSshKeyFingerprint pub) = false)
    (hload : ∀ uid, env.loadUserByIdFails uid = false)
    (haddU : env.addUserFails ("default-user@" ++ p.name) = false)
    (hins : env.insertSshKeyFails (getSshKeyFingerprint pub) = false)
    (hlink : ∀ a b, env.addSshKeyToUserFails a b = false)
    (hfreshU : ∀ u ∈ st.kc.users, u.id ≠ st.kc.nextUserId)
    (hname : ∀ u ∈ st.kc.users, u.username ≠ "default-user@" ++ p.name)
    (hfreshKey : ∀ k ∈ st.db.sshKeys, k.id ≠ st.db.nextSshKeyId)
    (hfreshL : ∀ l ∈ st.db.userSshKeys, l.skid ≠ st.db.nextSshKeyId) :
    (∀ uid u, selectUserIdsBySshKeyFingerprint st.db (getSshKeyFingerprint pub) = some uid →
      st.kc.users.find? (fun v => v.id == uid) = some u →
      identityStep env p pub st = Except.ok (some u, st)) ∧
    (selectUserIdsBySshKeyFingerprint st.db (getSshKeyFingerprint pub) = none →
      ∃ u st', identityStep env p pub st = Except.ok (some u, st') ∧
        u.username = "default-user@" ++ p.name ∧
        u.email = "default-user@" ++ p.name ∧
        st'.kc.users = st.kc.users ++ [u] ∧
        st'.db.sshKeys = st.db.sshKeys ++
          [{ id := st.db.nextSshKeyId, keyName := "auto-add via migration",
             keyType := pub.keyType, keyValue := pub.keyValue,
             keyFingerprint := getSshKeyFingerprint pub }] ∧
        st'.db.userSshKeys = st.db.userSshKeys ++
          [{ usid := u.id, skid := st.db.nextSshKeyId }] ∧
        identityStep env q pub st' = Except.ok (some u, st')) := by
  constructor
  · intro uid u hsome hfind
    have hloadOk : loadUserById env st uid = Except.ok u := by
      unfold loadUserById
      simp only [hload uid, Bool.false_eq_true, if_false]
      rw [hfind]
    unfold identityStep
    simp only [hq, Bool.false_eq_true, if_false]
    rw [hsome]
    dsimp only
    rw [hloadOk]
  · intro hnone
    have hanyf : st.kc.users.any (fun v => v.username == "default-user@" ++ p.name) = false := by
      rw [List.any_eq_false]
      intro v hv
      simpa using hname v hv
    refine ⟨⟨st.kc.nextUserId, "default-user@" ++ p.name, "default-user@" ++ p.name,
      "autogenerated user for project " ++ p.name⟩, ?_⟩
    set u : KCUser := ⟨st.kc.nextUserId, "default-user@" ++ p.name,
      "default-user@" ++ p.name, "autogenerated user for project " ++ p.name⟩ with hu
    set st1 : St := { st with kc := { st.kc with
      users := st.kc.users ++ [u],
      nextUserId := st.kc.nextUserId + 1 } } with hst1
    have haddOk : addUser env st ("default-user@" ++ p.name) ("default-user@" ++ p.name)
        ("autogenerated user for project " ++ p.name) = Except.ok (u, st1) := by
      unfold addUser
      simp only [haddU, Bool.false_eq_true, if_false, hanyf]
    set row : SshKeyRow := ⟨st.db.nextSshKeyId, "auto-add via migration",
      pub.keyType, pub.keyValue, getSshKeyFingerprint pub⟩ with hrow
    set st2 : St := { st1 with db := { st1.db with
      sshKeys := st1.db.sshKeys ++ [row],
      nextSshKeyId := st1.db.nextSshKeyId + 1 } } with hst2
    have hinsOk : insertSshKey env st1 pub.keyType pub.keyValue (getSshKeyFingerprint pub) =
        Except.ok (st.db.nextSshKeyId, st2) := by
      unfold insertSshKey
      simp only [hins, Bool.false_eq_true, if_false]
    set st3 : St := { st2 with db := { st2.db with
      userSshKeys := st2.db.userSshKeys ++ [{ usid := u.id, skid := st.db.nextSshKeyId }] } }
      with hst3
    have hlinkOk : addSshKeyToUser env st2 st.db.nextSshKeyId u.id = Except.ok st3 := by
      unfold addSshKeyToUser
      simp only [hlink, Bool.false_eq_true, if_false]
    have hrun : identityStep env p pub st = Except.ok (some u, st3) := by
      unfold identityStep
      simp only [hq, Bool.false_eq_true, if_false]
      rw [hnone]
      dsimp only
      rw [haddOk]
      dsimp only
      rw [hinsOk]
      dsimp only
      rw [hlinkOk]
    refine ⟨st3, hrun, rfl, rfl, rfl, rfl, rfl, ?_⟩
    have hfp3 : selectUserIdsBySshKeyFingerprint st3.db (getSshKeyFingerprint pub) =
        some u.id := by
      apply fpLookup_after_insert st.db st3.db (getSshKeyFingerprint pub) u.id
        st.db.nextSshKeyId row rfl rfl rfl rfl hnone hfreshKey hfreshL
    have hfind3 : st3.kc.users.find? (fun v => v.id == u.id) = some u := by
      show (st.kc.users ++ [u]).find? (fun v => v.id == u.id) = some u
      have hpre : st.kc.users.find? (fun v => v.id == u.id) = none := by
        rw [List.find?_eq_none]
        intro v hv
        simp only [beq_iff_eq]
        exact fun he => hfreshU v hv he
      rw [find?_append_none _ hpre, List.find?_cons_of_pos _ (by simp)]
    have hloadOk3 : loadUserById env st3 u.id = Except.ok u := by
      unfold loadUserById
      simp only [hload u.id, Bool.false_eq_true, if_false]
      rw [hfind3]
    unfold identityStep
    simp only [hq, Bool.false_eq_true, if_false]
    rw [hfp3]
    dsimp only
    rw [hloadOk3]

def c3RowP : ProjectRow := { id := 1, name := "pa", customer := 0, privateKey := none }

def c3RowQ : ProjectRow := { id := 2, name := "qa", customer := 0, privateKey := none }

/-- Witness for C3: on an empty store the creation branch runs and a second
resolution with the same public key returns the same identity. -/
theorem c3_identity_binder_witness :
    (okEnv.fingerprintQueryFails (getSshKeyFingerprint (pubToString 5)) = false) ∧
    (∀ u ∈ wSt.kc.users, u.id ≠ wSt.kc.nextUserId) ∧
    ((∀ uid u, selectUserIdsBySshKeyFingerprint wSt.db (getSshKeyFingerprint (pubToString 5)) = some uid →
       wSt.kc.users.find? (fun v => v.id == uid) = some u →
       identityStep okEnv c3RowP (pubToString 5) wSt = Except.ok (some u, wSt)) ∧
     (selectUserIdsBySshKeyFingerprint wSt.db (getSshKeyFingerprint (pubToString 5)) = none →
       ∃ u st', identityStep okEnv c3RowP (pubToString 5) wSt = Except.ok (some u, st') ∧
         u.username = "default-user@" ++ c3RowP.name ∧
         u.email = "default-user@" ++ c3RowP.name ∧
         st'.kc.users = wSt.kc.users ++ [u] ∧
         st'.db.sshKeys = wSt.db.sshKeys ++
           [{ id := wSt.db.nextSshKeyId, keyName := "auto-add via migration",
              keyType := (pubToString 5).keyType, keyValue := (pubToString 5).keyValue,
              keyFingerprint := getSshKeyFingerprint (pubToString 5) }] ∧
         st'.db.userSshKeys = wSt.db.userSshKeys ++
           [{ usid := u.id, skid := wSt.db.nextSshKeyId }] ∧
         identityStep okEnv c3RowQ (pubToString 5) st' = Except.ok (some u, st'))) :=
  ⟨rfl, by decide,
    c3_identity_binder okEnv c3RowP c3RowQ (pubToString 5) wSt rfl (fun _ => rfl) rfl rfl
      (fun _ _ => rfl) (by decide) (by decide) (by decide) (by decide)⟩

/-- Witness for C10 at concrete inputs. -/
theorem c10_undefined_user_guest_attempt_witness :
    (c10Env.fingerprintQueryFails (getSshKeyFingerprint (pubToString 8)) = false) ∧
    (selectUserIdsBySshKeyFingerprint wSt.db (getSshKeyFingerprint (pubToString 8)) = none) ∧
    (c10Env.addUserFails ("default-user@" ++ c10Row.name) = true) ∧
    (identityStep c10Env c10Row (pubToString 8) wSt =
      Except.ok (none, logLine wSt ("Could not create default project user for " ++
        c10Row.name ++ ": " ++ "user add failed")) ∧
     identityAndGuest c10Env c10Row (some c10Grp) (pubToString 8) wSt =
      Except.ok (logLine (logLine wSt ("Could not create default project user for " ++
        c10Row.name ++ ": " ++ "user add failed"))
        ("Could not link user to default projet group for " ++ c10Row.name ++
          ": " ++ "invalid user or group"))) :=
  ⟨by decide, by decide, by decide,
    c10_undefined_user_guest_attempt c10Env c10Row (pubToString 8) c10Grp wSt
      (by decide) (by decide) (by decide)⟩


/-! ### First run: identity and guest phases establish the key binding -/

theorem string_append_cancel_left (s t u : String) (h : s ++ t = s ++ u) : t = u := by
  have hd : (s ++ t).data = (s ++ u).data := congrArg String.data h
  rw [String.data_append, String.data_append] at hd
  have hdu := List.append_cancel_left hd
  cases t with
  | mk td =>
    cases u with
    | mk ud =>
      have : td = ud := by simpa using hdu
      rw [this]

theorem fpLookup_mono (db db' : DB) (row : SshKeyRow) (lnk : UserSshKeyRow)
    (hkeys : db'.sshKeys = db.sshKeys ++ [row])
    (hlinks : db'.userSshKeys = db.userSshKeys ++ [lnk])
    (hfreshL : ∀ l ∈ db.userSshKeys, l.skid ≠ row.id) :
    ∀ fp uid, selectUserIdsBySshKeyFingerprint db fp = some uid →
      selectUserIdsBySshKeyFingerprint db' fp = some uid := by
  intro fp uid h
  unfold selectUserIdsBySshKeyFingerprint at h ⊢
  rw [hkeys, hlinks]
  cases hf : db.userSshKeys.find? (fun l =>
      (db.sshKeys.find? (fun k => k.id == l.skid)).any
        (fun k => k.keyFingerprint == fp)) with
  | none =>
    rw [hf] at h
    exact Option.noConfusion h
  | some l0 =>
    rw [hf] at h
    have hcongr : ∀ l ∈ db.userSshKeys,
        (((db.sshKeys ++ [row]).find? (fun k => k.id == l.skid)).any
          (fun k => k.keyFingerprint == fp)) =
        ((db.sshKeys.find? (fun k => k.id == l.skid)).any
          (fun k => k.keyFingerprint == fp)) := by
      intro l hl
      cases hk : db.sshKeys.find? (fun k => k.id == l.skid) with
      | some k0 => rw [find?_append_some _ hk]
      | none =>
        rw [find?_append_none _ hk]
        have hne : (row.id == l.skid) = false :=
          beq_eq_false_iff_ne.mpr (fun he => hfreshL l hl he.symm)
        rw [List.find?_cons_of_neg _ (by simp [hne]), List.find?_nil]
    have hpre := (find?_congr_mem db.userSshKeys _ _ hcongr).trans hf
    rw [find?_append_some _ hpre]
    exact h

theorem identityStep_envOk (env : Env) (p : ProjectRow) (pub : PubText) (st : St)
    (hq : env.fingerprintQueryFails (getSshKeyFingerprint pub) = false)
    (h6 : ∀ s, env.addUserFails s = false)
    (h7 : ∀ i, env.loadUserByIdFails i = false)
    (h8 : ∀ f, env.insertSshKeyFails f = false)
    (h9 : ∀ a b, env.addSshKeyToUserFails a b = false)
    (hsquat : ∀ u ∈ st.kc.users, u.username ≠ "default-user@" ++ p.name)
    (hfU : ∀ u ∈ st.kc.users, u.id < st.kc.nextUserId)
    (hfK : ∀ k ∈ st.db.sshKeys, k.id < st.db.nextSshKeyId)
    (hfL : ∀ l ∈ st.db.userSshKeys, l.skid < st.db.nextSshKeyId)
    (hinteg : linkIntegrity st) :
    ∃ u st', identityStep env p pub st = Except.ok (some u, st') ∧
      st'.db.projects = st.db.projects ∧
      st'.db.users = st.db.users ∧
      st'.db.projectUsers = st.db.projectUsers ∧
      st'.db.customers = st.db.customers ∧
      st'.kc.groups = st.kc.groups ∧
      st'.kc.memberships = st.kc.memberships ∧
      st'.genCounter = st.genCounter ∧
      st'.kc.nextGroupId = st.kc.nextGroupId ∧
      (∃ uid, selectUserIdsBySshKeyFingerprint st'.db (getSshKeyFingerprint pub) = some uid ∧
        st'.kc.users.find? (fun v => v.id == uid) = some u) ∧
      (∀ v ∈ st.kc.users, v ∈ st'.kc.users) ∧
      (∀ v ∈ st'.kc.users, v ∈ st.kc.users ∨ v.username = "default-user@" ++ p.name) ∧
      (∀ fp' uid', selectUserIdsBySshKeyFingerprint st.db fp' = some uid' →
        selectUserIdsBySshKeyFingerprint st'.db fp' = some uid') ∧
      (∀ e u', st'.kc.users.find? (fun v => v.username == e) = some u' →
        st.kc.users.find? (fun v => v.username == e) = some u' ∨
          e = "default-user@" ++ p.name) ∧
      (∀ i u', st.kc.users.find? (fun v => v.id == i) = some u' →
        st'.kc.users.find? (fun v => v.id == i) = some u') ∧
      (∀ v ∈ st'.kc.users, v.id < st'.kc.nextUserId) ∧
      (∀ k ∈ st'.db.sshKeys, k.id < st'.db.nextSshKeyId) ∧
      (∀ l ∈ st'.db.userSshKeys, l.skid < st'.db.nextSshKeyId) ∧
      linkIntegrity st' := by
  unfold identityStep
  simp only [hq, Bool.false_eq_true, if_false]
  cases hfp : selectUserIdsBySshKeyFingerprint st.db (getSshKeyFingerprint pub) with
  | some uid =>
    dsimp only
    have hex : ∃ u ∈ st.kc.users, u.id = uid := by
      unfold selectUserIdsBySshKeyFingerprint at hfp
      cases hf : st.db.userSshKeys.find? (fun l =>
          (st.db.sshKeys.find? (fun k => k.id == l.skid)).any
            (fun k => k.keyFingerprint == getSshKeyFingerprint pub)) with
      | none => rw [hf] at hfp; exact Option.noConfusion hfp
      | some l =>
        rw [hf] at hfp
        have hlu : l.usid = uid := Option.some.inj hfp
        obtain ⟨u, hum, hid⟩ := hinteg l (List.mem_of_find?_eq_some hf)
        exact ⟨u, hum, hid.trans hlu⟩
    obtain ⟨u0, hu0, hid0⟩ := hex
    obtain ⟨u1, hu1⟩ := find?_isSome_of_mem st.kc.users (fun v => v.id == uid) u0 hu0
      (by simpa using hid0)
    have hload : loadUserById env st uid = Except.ok u1 := by
      unfold loadUserById
      simp only [h7 uid, Bool.false_eq_true, if_false]
      rw [hu1]
    rw [hload]
    exact ⟨u1, st, rfl, rfl, rfl, rfl, rfl, rfl, rfl, rfl, rfl,
      ⟨uid, hfp, hu1⟩, fun v hv => hv, fun v hv => Or.inl hv,
      fun fp' uid' h => h, fun e u' h => Or.inl h, fun i u' h => h,
      hfU, hfK, hfL, hinteg⟩
  | none =>
    dsimp only
    have hanyf : st.kc.users.any (fun v => v.username == "default-user@" ++ p.name) = false := by
      rw [List.any_eq_false]
      intro v hv
      simpa using hsquat v hv
    set u : KCUser := ⟨st.kc.nextUserId, "default-user@" ++ p.name,
      "default-user@" ++ p.name, "autogenerated user for project " ++ p.name⟩ with hu
    set st1 : St := { st with kc := { st.kc with
      users := st.kc.users ++ [u],
      nextUserId := st.kc.nextUserId + 1 } } with hst1
    have haddOk : addUser env st ("default-user@" ++ p.name) ("default-user@" ++ p.name)
        ("autogenerated user for project " ++ p.name) = Except.ok (u, st1) := by
      unfold addUser
      simp only [h6, Bool.false_eq_true, if_false, hanyf]
    set row : SshKeyRow := ⟨st.db.nextSshKeyId, "auto-add via migration",
      pub.keyType, pub.keyValue, getSshKeyFingerprint pub⟩ with hrow
    set st2 : St := { st1 with db := { st1.db with
      sshKeys := st1.db.sshKeys ++ [row],
      nextSshKeyId := st1.db.nextSshKeyId + 1 } } with hst2
    have hinsOk : insertSshKey env st1 pub.keyType pub.keyValue (getSshKeyFingerprint pub) =
        Except.ok (st.db.nextSshKeyId, st2) := by
      unfold insertSshKey
      simp only [h8, Bool.false_eq_true, if_false]
    set st3 : St := { st2 with db := { st2.db with
      userSshKeys := st2.db.userSshKeys ++ [{ usid := u.id, skid := st.db.nextSshKeyId }] } }
      with hst3
    have hlinkOk : addSshKeyToUser env st2 st.db.nextSshKeyId u.id = Except.ok st3 := by
      unfold addSshKeyToUser
      simp only [h9, Bool.false_eq_true, if_false]
    rw [haddOk]
    dsimp only
    rw [hinsOk]
    dsimp only
    rw [hlinkOk]
    have hfp3 : selectUserIdsBySshKeyFingerprint st3.db (getSshKeyFingerprint pub) =
        some u.id := by
      apply fpLookup_after_insert st.db st3.db (getSshKeyFingerprint pub) u.id
        st.db.nextSshKeyId row rfl rfl rfl rfl hfp
        (fun kk hk => Nat.ne_of_lt (hfK kk hk))
        (fun l hl => Nat.ne_of_lt (hfL l hl))
    have hfind3 : st3.kc.users.find? (fun v => v.id == u.id) = some u := by
      show (st.kc.users ++ [u]).find? (fun v => v.id == u.id) = some u
      have hpre : st.kc.users.find? (fun v => v.id == u.id) = none := by
        rw [List.find?_eq_none]
        intro v hv
        simp only [beq_iff_eq]
        exact fun he => Nat.ne_of_lt (hfU v hv) he
      rw [find?_append_none _ hpre, List.find?_cons_of_pos _ (by simp)]
    refine ⟨u, st3, rfl, rfl, rfl, rfl, rfl, rfl, rfl, rfl, rfl,
      ⟨u.id, hfp3, hfind3⟩, ?_, ?_, ?_, ?_, ?_, ?_, ?_, ?_, ?_⟩
    · intro v hv
      show v ∈ st.kc.users ++ [u]
      exact List.mem_append_left _ hv
    · intro v hv
      have hv2 : v ∈ st.kc.users ++ [u] := hv
      rcases List.mem_append.mp hv2 with ho | hn
      · exact Or.inl ho
      · exact Or.inr (by rw [List.mem_singleton.mp hn])
    · exact fpLookup_mono st.db st3.db row { usid := u.id, skid := st.db.nextSshKeyId }
        rfl rfl (fun l hl => Nat.ne_of_lt (hfL l hl))
    · intro e u' hu'
      have hu2 : (st.kc.users ++ [u]).find? (fun v => v.username == e) = some u' := hu'
      cases hfo : st.kc.users.find? (fun v => v.username == e) with
      | some x =>
        rw [find?_append_some _ hfo] at hu2
        exact Or.inl hu2
      | none =>
        rw [find?_append_none _ hfo] at hu2
        cases hb : (u.username == e) with
        | false =>
          rw [List.find?_cons_of_neg _ (by simp [hb]), List.find?_nil] at hu2
          exact Option.noConfusion hu2
        | true =>
          have : u.username = e := by simpa using hb
          exact Or.inr this.symm
    · intro i u' hu'
      show (st.kc.users ++ [u]).find? (fun v => v.id == i) = some u'
      exact find?_append_some _ hu'
    · intro v hv
      have hv2 : v ∈ st.kc.users ++ [u] := hv
      show v.id < st.kc.nextUserId + 1
      rcases List.mem_append.mp hv2 with ho | hn
      · exact Nat.lt_trans (hfU v ho) (Nat.lt_succ_self _)
      · rw [List.mem_singleton.mp hn]
        exact Nat.lt_succ_self _
    · intro k hk
      have hk2 : k ∈ st.db.sshKeys ++ [row] := hk
      show k.id < st.db.nextSshKeyId + 1
      rcases List.mem_append.mp hk2 with ho | hn
      · exact Nat.lt_trans (hfK k ho) (Nat.lt_succ_self _)
      · rw [List.mem_singleton.mp hn]
        exact Nat.lt_succ_self _
    · intro l hl
      have hl2 : l ∈ st.db.userSshKeys ++ [{ usid := u.id, skid := st.db.nextSshKeyId }] := hl
      show l.skid < st.db.nextSshKeyId + 1
      rcases List.mem_append.mp hl2 with ho | hn
      · exact Nat.lt_trans (hfL l ho) (Nat.lt_succ_self _)
      · rw [List.mem_singleton.mp hn]
        exact Nat.lt_succ_self _
    · intro l hl
      have hl2 : l ∈ st.db.userSshKeys ++ [{ usid := u.id, skid := st.db.nextSshKeyId }] := hl
      rcases List.mem_append.mp hl2 with ho | hn
      · obtain ⟨v, hvm, hvid⟩ := hinteg l ho
        exact ⟨v, List.mem_append_left _ hvm, hvid⟩
      · refine ⟨u, List.mem_append_right _ (List.mem_singleton_self _), ?_⟩
        rw [List.mem_singleton.mp hn]

theorem guestStep_envOk (env : Env) (p : ProjectRow) (u : KCUser) (g : KCGroup) (st : St)
    (h5 : ∀ a b r, env.addUserToGroupFails a b r = false) :
    (guestStep env p (some u) (some g) st).db = st.db ∧
    (guestStep env p (some u) (some g) st).kc.users = st.kc.users ∧
    (guestStep env p (some u) (some g) st).kc.groups = st.kc.groups ∧
    (guestStep env p (some u) (some g) st).kc.nextGroupId = st.kc.nextGroupId ∧
    (guestStep env p (some u) (some g) st).kc.nextUserId = st.kc.nextUserId ∧
    (guestStep env p (some u) (some g) st).genCounter = st.genCounter ∧
    (∀ m ∈ st.kc.memberships, m ∈ (guestStep env p (some u) (some g) st).kc.memberships) ∧
    (u.id, g.id, Role.guest) ∈ (guestStep env p (some u) (some g) st).kc.memberships := by
  by_cases hmem : (u.id, g.id, Role.guest) ∈ st.kc.memberships
  · have ha : addUserToGroup env st (some u) (some g) Role.guest = Except.ok st := by
      unfold addUserToGroup
      simp only [h5 u.id g.id Role.guest, Bool.false_eq_true, if_false]
      rw [if_pos hmem]
    have hred : guestStep env p (some u) (some g) st = st := by
      unfold guestStep
      rw [ha]
    rw [hred]
    exact ⟨rfl, rfl, rfl, rfl, rfl, rfl, fun m hm => hm, hmem⟩
  · have ha : addUserToGroup env st (some u) (some g) Role.guest =
        Except.ok { st with kc := { st.kc with
          memberships := st.kc.memberships ++ [(u.id, g.id, Role.guest)] } } := by
      unfold addUserToGroup
      simp only [h5 u.id g.id Role.guest, Bool.false_eq_true, if_false]
      rw [if_neg hmem]
    have hred : guestStep env p (some u) (some g) st = { st with kc := { st.kc with
        memberships := st.kc.memberships ++ [(u.id, g.id, Role.guest)] } } := by
      unfold guestStep
      rw [ha]
    rw [hred]
    exact ⟨rfl, rfl, rfl, rfl, rfl, rfl, fun m hm => List.mem_append_left _ hm,
      List.mem_append_right _ (List.mem_singleton_self _)⟩

theorem identityAndGuest_establishes (env : Env) (p : ProjectRow) (g : KCGroup)
    (pub : PubText) (st : St)
    (hq : env.fingerprintQueryFails (getSshKeyFingerprint pub) = false)
    (h5 : ∀ a b r, env.addUserToGroupFails a b r = false)
    (h6 : ∀ s, env.addUserFails s = false)
    (h7 : ∀ i, env.loadUserByIdFails i = false)
    (h8 : ∀ f, env.insertSshKeyFails f = false)
    (h9 : ∀ a b, env.addSshKeyToUserFails a b = false)
    (hsquat : ∀ u ∈ st.kc.users, u.username ≠ "default-user@" ++ p.name)
    (hfU : ∀ u ∈ st.kc.users, u.id < st.kc.nextUserId)
    (hfK : ∀ k ∈ st.db.sshKeys, k.id < st.db.nextSshKeyId)
    (hfL : ∀ l ∈ st.db.userSshKeys, l.skid < st.db.nextSshKeyId)
    (hinteg : linkIntegrity st) :
    ∃ st', identityAndGuest env p (some g) pub st = Except.ok st' ∧
      st'.db.projects = st.db.projects ∧
      st'.db.users = st.db.users ∧
      st'.db.projectUsers = st.db.projectUsers ∧
      st'.db.customers = st.db.customers ∧
      st'.kc.groups = st.kc.groups ∧
      st'.genCounter = st.genCounter ∧
      st'.kc.nextGroupId = st.kc.nextGroupId ∧
      (∀ m ∈ st.kc.memberships, m ∈ st'.kc.memberships) ∧
      (∃ uid u, selectUserIdsBySshKeyFingerprint st'.db (getSshKeyFingerprint pub) = some uid ∧
        st'.kc.users.find? (fun v => v.id == uid) = some u ∧
        (u.id, g.id, Role.guest) ∈ st'.kc.memberships) ∧
      (∀ v ∈ st.kc.users, v ∈ st'.kc.users) ∧
      (∀ v ∈ st'.kc.users, v ∈ st.kc.users ∨ v.username = "default-user@" ++ p.name) ∧
      (∀ fp' uid', selectUserIdsBySshKeyFingerprint st.db fp' = some uid' →
        selectUserIdsBySshKeyFingerprint st'.db fp' = some uid') ∧
      (∀ e u', st'.kc.users.find? (fun v => v.username == e) = some u' →
        st.kc.users.find? (fun v => v.username == e) = some u' ∨
          e = "default-user@" ++ p.name) ∧
      (∀ i u', st.kc.users.find? (fun v => v.id == i) = some u' →
        st'.kc.users.find? (fun v => v.id == i) = some u') ∧
      (∀ v ∈ st'.kc.users, v.id < st'.kc.nextUserId) ∧
      (∀ k ∈ st'.db.sshKeys, k.id < st'.db.nextSshKeyId) ∧
      (∀ l ∈ st'.db.userSshKeys, l.skid < st'.db.nextSshKeyId) ∧
      linkIntegrity st' := by
  obtain ⟨u, stI, hrun, i1, i2, i3, i4, i5, i6, i7, i8, ⟨uid, hifp, hifind⟩, i10, i11,
    i12, i13, i14, i15, i16, i17, i18⟩ :=
    identityStep_envOk env p pub st hq h6 h7 h8 h9 hsquat hfU hfK hfL hinteg
  obtain ⟨g1, g2, g3, g4, g5, g6, g7, g8⟩ := guestStep_envOk env p u g stI h5
  refine ⟨guestStep env p (some u) (some g) stI, ?_, ?_, ?_, ?_, ?_, ?_, ?_, ?_, ?_,
    ?_, ?_, ?_, ?_, ?_, ?_, ?_, ?_, ?_, ?_⟩
  · unfold identityAndGuest
    rw [hrun]
  · rw [g1, i1]
  · rw [g1, i2]
  · rw [g1, i3]
  · rw [g1, i4]
  · rw [g3, i5]
  · rw [g6, i7]
  · rw [g4, i8]
  · intro m hm
    rw [i6] at g7
    exact g7 m hm
  · refine ⟨uid, u, ?_, ?_, g8⟩
    · rw [g1]
      exact hifp
    · rw [g2]
      exact hifind
  · intro v hv
    rw [g2]
    exact i10 v hv
  · intro v hv
    rw [g2] at hv
    exact i11 v hv
  · intro fp' uid' h
    rw [g1]
    exact i12 fp' uid' h
  · intro e u' h
    rw [g2] at h
    exact i13 e u' h
  · intro i u' h
    rw [g2]
    exact i14 i u' h
  · intro v hv
    rw [g2] at hv
    rw [g5]
    exact i15 v hv
  · intro k hk
    rw [g1] at hk
    rw [g1]
    exact i16 k hk
  · intro l hl
    rw [g1] at hl
    rw [g1]
    exact i17 l hl
  · apply linkIntegrity_transport stI _ (by rw [g1]) _ i18
    intro v hv
    rw [g2]
    exact hv

/-! ### First run: loop invariant machinery -/

theorem fpLookup_congr (db db' : DB) (hk : db'.sshKeys = db.sshKeys)
    (hl : db'.userSshKeys = db.userSshKeys) (fp : Nat) :
    selectUserIdsBySshKeyFingerprint db' fp = selectUserIdsBySshKeyFingerprint db fp := by
  unfold selectUserIdsBySshKeyFingerprint
  rw [hk, hl]

theorem projectUserEmails_congr (db db' : DB) (hpu : db'.projectUsers = db.projectUsers)
    (hdu : db'.users = db.users) (pid : Nat) :
    projectUserEmails db' pid = projectUserEmails db pid := by
  unfold projectUserEmails
  rw [hpu, hdu]

theorem projectUserEmails_sourced (db : DB) (pid : Nat) (e? : Option String)
    (he : e? ∈ projectUserEmails db pid) (e : String) (he' : e? = some e) :
    ∃ du ∈ db.users, du.email = some e := by
  unfold projectUserEmails at he
  rcases List.mem_map.mp he with ⟨pu, hpu, heq⟩
  rw [← heq] at he'
  cases hfind : db.users.find? (fun v => v.id == pu.usid) with
  | none =>
    rw [hfind] at he'
    exact Option.noConfusion he'
  | some du =>
    rw [hfind] at he'
    exact ⟨du, List.mem_of_find?_eq_some hfind, he'⟩

def wbFn (pid : Nat) (t : PrivText) (r : ProjectRow) : ProjectRow :=
  if r.id == pid then { r with privateKey := some t } else r

theorem writeBackRows_eq_map (rows : List ProjectRow) (pid : Nat) (t : PrivText) :
    writeBackRows rows pid t = rows.map (wbFn pid t) := rfl

theorem wbFn_id (pid : Nat) (t : PrivText) (r : ProjectRow) : (wbFn pid t r).id = r.id := by
  unfold wbFn
  by_cases h : r.id = pid
  · rw [if_pos (by simpa using h)]
  · rw [if_neg (by simpa using h)]

theorem wbFn_name (pid : Nat) (t : PrivText) (r : ProjectRow) :
    (wbFn pid t r).name = r.name := by
  unfold wbFn
  by_cases h : r.id = pid
  · rw [if_pos (by simpa using h)]
  · rw [if_neg (by simpa using h)]

theorem wbFn_of_ne (pid : Nat) (t : PrivText) (r : ProjectRow) (h : r.id ≠ pid) :
    wbFn pid t r = r := by
  unfold wbFn
  rw [if_neg (by simpa using h)]

theorem wbFn_of_eq (pid : Nat) (t : PrivText) (r : ProjectRow) (h : r.id = pid) :
    wbFn pid t r = { r with privateKey := some t } := by
  unfold wbFn
  rw [if_pos (by simpa using h)]

theorem projDistinct_writeBack (rows : List ProjectRow) (pid : Nat) (t : PrivText)
    (h : projDistinct rows) : projDistinct (writeBackRows rows pid t) := by
  rw [writeBackRows_eq_map]
  unfold projDistinct at h ⊢
  rw [List.pairwise_map]
  exact h.imp (fun hab => ⟨by rw [wbFn_id, wbFn_id]; exact hab.1,
    by rw [wbFn_name, wbFn_name]; exact hab.2⟩)

theorem writeBack_mem_of_ne (rows : List ProjectRow) (pid : Nat) (t : PrivText)
    (q : ProjectRow) (hq : q ∈ rows) (hne : q.id ≠ pid) : q ∈ writeBackRows rows pid t := by
  rw [writeBackRows_eq_map]
  have hm := List.mem_map_of_mem (wbFn pid t) hq
  rw [wbFn_of_ne pid t q hne] at hm
  exact hm

theorem writeBack_mem_elim (rows : List ProjectRow) (pid : Nat) (t : PrivText)
    (r' : ProjectRow) (h : r' ∈ writeBackRows rows pid t) :
    ∃ r0 ∈ rows, r' = wbFn pid t r0 := by
  rw [writeBackRows_eq_map] at h
  rcases List.mem_map.mp h with ⟨r0, hr0, heq⟩
  exact ⟨r0, hr0, heq.symm⟩

/-- Invariant carried along the project loop during the first run: the rows
still to process are distinct and present, no identity squats a pending
default-user name, stored emails are clean, ids are fresh, and every row
whose id is no longer pending has reached its Done configuration. -/
def LoopInv (todo : List ProjectRow) (st : St) : Prop :=
  projDistinct st.db.projects ∧
  todo.Pairwise (fun a b => a.id ≠ b.id ∧ a.name ≠ b.name) ∧
  (∀ q ∈ todo, q ∈ st.db.projects) ∧
  (∀ u ∈ st.kc.users, ∀ q ∈ todo, u.username ≠ "default-user@" ++ q.name) ∧
  emailsClean st.db.users st.db.projects ∧
  freshIds st ∧ groupIdsNodup st ∧ linkIntegrity st ∧
  (∀ r ∈ st.db.projects, (∀ q ∈ todo, r.id ≠ q.id) → Done st r)

theorem Done_step_preserved (p r : ProjectRow) (st stF : St)
    (hr : r ∈ st.db.projects) (hpm : p ∈ st.db.projects)
    (hdist : projDistinct st.db.projects)
    (hclean : emailsClean st.db.users st.db.projects)
    (hrne : r.id ≠ p.id)
    (hpu : stF.db.projectUsers = st.db.projectUsers)
    (hdu : stF.db.users = st.db.users)
    (hgother : ∀ n, n ≠ projectGroupNameOf p →
      stF.kc.groups.find? (fun x => x.name == n) = st.kc.groups.find? (fun x => x.name == n))
    (hfind : ∀ e u, stF.kc.users.find? (fun v => v.username == e) = some u →
      st.kc.users.find? (fun v => v.username == e) = some u ∨ e = "default-user@" ++ p.name)
    (hmem : ∀ m ∈ st.kc.memberships, m ∈ stF.kc.memberships)
    (hfp : ∀ fp uid, selectUserIdsBySshKeyFingerprint st.db fp = some uid →
      selectUserIdsBySshKeyFingerprint stF.db fp = some uid)
    (hfid : ∀ i u, st.kc.users.find? (fun v => v.id == i) = some u →
      stF.kc.users.find? (fun v => v.id == i) = some u)
    (hD : Done st r) : Done stF r := by
  obtain ⟨g0, hg0, hst0, how0, hk0⟩ := hD
  refine ⟨g0, ?_, hst0, ?_, ?_⟩
  · have hne : projectGroupNameOf r ≠ projectGroupNameOf p := fun he =>
      proj_name_ne_of_id_ne st.db.projects hdist r p hr hpm hrne
        (string_append_cancel_left "project-" r.name p.name he)
    show stF.kc.groups.find? (fun x => x.name == projectGroupNameOf r) = some g0
    rw [hgother (projectGroupNameOf r) hne]
    exact hg0
  · intro e? he e he' u hu
    rw [projectUserEmails_congr st.db stF.db hpu hdu r.id] at he
    rcases hfind e u hu with hold | hb
    · exact hmem _ (how0 e? he e he' u hold)
    · obtain ⟨du, hdum, hdue⟩ := projectUserEmails_sourced st.db r.id e? he e he'
      exact absurd hb (hclean du hdum e hdue p hpm)
  · rcases hk0 with ⟨s, hs1, hs2⟩ | ⟨k, uid, u, hk, hsel, hfindid, hmemb⟩
    · exact Or.inl ⟨s, hs1, hs2⟩
    · exact Or.inr ⟨k, uid, u, hk, hfp _ _ hsel, hfid _ _ hfindid, hmem _ hmemb⟩

theorem Done_established (p pcur : ProjectRow) (g : KCGroup) (k : Nat) (stX stF : St)
    (hpid : pcur.id = p.id) (hpname : pcur.name = p.name)
    (hpkey : pcur.privateKey = some (PrivText.wellFormed k))
    (hgfind : stF.kc.groups.find? (fun x => x.name == projectGroupNameOf p) = some g)
    (hstable : mergedAttrs g.attributes p.id = g.attributes)
    (hpu : stF.db.projectUsers = stX.db.projectUsers)
    (hdu : stF.db.users = stX.db.users)
    (hestX : ∀ e? ∈ projectUserEmails stX.db p.id, ∀ e, e? = some e → ∀ u,
      stX.kc.users.find? (fun v => v.username == e) = some u →
      (u.id, g.id, Role.owner) ∈ stX.kc.memberships)
    (hmemmono : ∀ m ∈ stX.kc.memberships, m ∈ stF.kc.memberships)
    (hfindback : ∀ e u, stF.kc.users.find? (fun v => v.username == e) = some u →
      stX.kc.users.find? (fun v => v.username == e) = some u ∨ e = "default-user@" ++ p.name)
    (hnotbad : ∀ e? ∈ projectUserEmails stX.db p.id, ∀ e, e? = some e →
      e ≠ "default-user@" ++ p.name)
    (hbind : ∃ uid u, selectUserIdsBySshKeyFingerprint stF.db
        (getSshKeyFingerprint (pubToString (toPublic k))) = some uid ∧
      stF.kc.users.find? (fun v => v.id == uid) = some u ∧
      (u.id, g.id, Role.guest) ∈ stF.kc.memberships) :
    Done stF pcur := by
  obtain ⟨uid, u, hb1, hb2, hb3⟩ := hbind
  refine ⟨g, ?_, ?_, ?_, ?_⟩
  · show stF.kc.groups.find? (fun x => x.name == projectGroupNameOf pcur) = some g
    have hpn : projectGroupNameOf pcur = projectGroupNameOf p := by
      unfold projectGroupNameOf
      rw [hpname]
    rw [hpn]
    exact hgfind
  · show mergedAttrs g.attributes pcur.id = g.attributes
    rw [hpid]
    exact hstable
  · intro e? he e he' u' hu'
    rw [hpid, projectUserEmails_congr stX.db stF.db hpu hdu p.id] at he
    rcases hfindback e u' hu' with hold | hb
    · exact hmemmono _ (hestX e? he e he' u' hold)
    · exact absurd hb (hnotbad e? he e he')
  · exact Or.inr ⟨k, uid, u, hpkey, hb1, hb2, hb3⟩

theorem finishIAG (env : Env) (p : ProjectRow) (todo' : List ProjectRow)
    (st stG stX : St) (g : KCGroup) (k : Nat) (rows' : List ProjectRow)
    (e5 : ∀ a b r, env.addUserToGroupFails a b r = false)
    (e6 : ∀ s, env.addUserFails s = false)
    (e7 : ∀ i, env.loadUserByIdFails i = false)
    (e10 : ∀ f, env.fingerprintQueryFails f = false)
    (e11 : ∀ f, env.insertSshKeyFails f = false)
    (e12 : ∀ a b, env.addSshKeyToUserFails a b = false)
    (hdist : projDistinct st.db.projects)
    (htdist : todo'.Pairwise (fun a b => a.id ≠ b.id ∧ a.name ≠ b.name))
    (hpnames : ∀ q ∈ todo', p.id ≠ q.id ∧ p.name ≠ q.name)
    (hpmem : p ∈ st.db.projects)
    (hsquat : ∀ u ∈ st.kc.users, ∀ q ∈ p :: todo', u.username ≠ "default-user@" ++ q.name)
    (hclean : emailsClean st.db.users st.db.projects)
    (hfU : ∀ u ∈ st.kc.users, u.id < st.kc.nextUserId)
    (hfK : ∀ kk ∈ st.db.sshKeys, kk.id < st.db.nextSshKeyId)
    (hfL : ∀ l ∈ st.db.userSshKeys, l.skid < st.db.nextSshKeyId)
    (hinteg : linkIntegrity st)
    (hdone : ∀ r ∈ st.db.projects, (∀ q ∈ p :: todo', r.id ≠ q.id) → Done st r)
    (hGfind : stG.kc.groups.find? (fun x => x.name == projectGroupNameOf p) = some g)
    (hGstable : mergedAttrs g.attributes p.id = g.attributes)
    (hGother : ∀ n, n ≠ projectGroupNameOf p →
      stG.kc.groups.find? (fun x => x.name == n) = st.kc.groups.find? (fun x => x.name == n))
    (hGfreshG : ∀ g' ∈ stG.kc.groups, g'.id < stG.kc.nextGroupId)
    (hGnodup : (stG.kc.groups.map (fun x => x.id)).Nodup)
    (hXusers : stX.kc.users = st.kc.users)
    (hXnextU : stX.kc.nextUserId = st.kc.nextUserId)
    (hXgroups : stX.kc.groups = stG.kc.groups)
    (hXnextG : stX.kc.nextGroupId = stG.kc.nextGroupId)
    (hXprojects : stX.db.projects = rows')
    (hXusersD : stX.db.users = st.db.users)
    (hXpu : stX.db.projectUsers = st.db.projectUsers)
    (hXkeys : stX.db.sshKeys = st.db.sshKeys)
    (hXlinks : stX.db.userSshKeys = st.db.userSshKeys)
    (hXnextK : stX.db.nextSshKeyId = st.db.nextSshKeyId)
    (hXmemmono : ∀ m ∈ st.kc.memberships, m ∈ stX.kc.memberships)
    (hest : ∀ e? ∈ projectUserEmails st.db p.id, ∀ e, e? = some e → ∀ u,
      st.kc.users.find? (fun v => v.username == e) = some u →
      (u.id, g.id, Role.owner) ∈ stX.kc.memberships)
    (hrows : ∀ r' ∈ rows', (r' ∈ st.db.projects ∧ r'.id ≠ p.id) ∨
      (r'.id = p.id ∧ r'.name = p.name ∧ r'.privateKey = some (PrivText.wellFormed k)))
    (htodomem : ∀ q ∈ todo', q ∈ rows')
    (hdist' : projDistinct rows')
    (hcleanrows : emailsClean st.db.users rows') :
    ∃ st', identityAndGuest env p (some g) (pubToString (toPublic k)) stX = Except.ok st' ∧
      LoopInv todo' st' := by
  have hsquatX : ∀ u ∈ stX.kc.users, u.username ≠ "default-user@" ++ p.name := by
    intro u hu
    rw [hXusers] at hu
    exact hsquat u hu p (List.mem_cons_self p todo')
  have hfUX : ∀ u ∈ stX.kc.users, u.id < stX.kc.nextUserId := by
    intro u hu
    rw [hXusers] at hu
    rw [hXnextU]
    exact hfU u hu
  have hfKX : ∀ kk ∈ stX.db.sshKeys, kk.id < stX.db.nextSshKeyId := by
    intro kk hk
    rw [hXkeys] at hk
    rw [hXnextK]
    exact hfK kk hk
  have hfLX : ∀ l ∈ stX.db.userSshKeys, l.skid < stX.db.nextSshKeyId := by
    intro l hl
    rw [hXlinks] at hl
    rw [hXnextK]
    exact hfL l hl
  have hintegX : linkIntegrity stX := by
    intro l hl
    rw [hXlinks] at hl
    obtain ⟨u, hum, hid⟩ := hinteg l hl
    refine ⟨u, ?_, hid⟩
    rw [hXusers]
    exact hum
  obtain ⟨stF, haig, a1, a2, a3, a4, a5, a6, a7, a8, ⟨uid, uB, hb1, hb2, hb3⟩, a10, a11,
    a12, a13, a14, a15, a16, a17, a18⟩ :=
    identityAndGuest_establishes env p g (pubToString (toPublic k)) stX
      (e10 _) e5 e6 e7 e11 e12 hsquatX hfUX hfKX hfLX hintegX
  have hestX : ∀ e? ∈ projectUserEmails stX.db p.id, ∀ e, e? = some e → ∀ u,
      stX.kc.users.find? (fun v => v.username == e) = some u →
      (u.id, g.id, Role.owner) ∈ stX.kc.memberships := by
    intro e? he e he' u hu
    rw [projectUserEmails_congr st.db stX.db hXpu hXusersD] at he
    rw [hXusers] at hu
    exact hest e? he e he' u hu
  refine ⟨stF, haig, ?_, htdist, ?_, ?_, ?_, ⟨?_, a15, ?_, ?_⟩, ?_, a18, ?_⟩
  · rw [a1, hXprojects]
    exact hdist'
  · intro q hq
    rw [a1, hXprojects]
    exact htodomem q hq
  · intro u hu q hq
    rcases a11 u hu with ho | he
    · rw [hXusers] at ho
      exact hsquat u ho q (List.mem_cons_of_mem p hq)
    · rw [he]
      intro hc
      exact (hpnames q hq).2 (string_append_cancel_left "default-user@" p.name q.name hc)
  · show emailsClean stF.db.users stF.db.projects
    rw [a2, hXusersD, a1, hXprojects]
    exact hcleanrows
  · intro g' hg'
    rw [a5, hXgroups] at hg'
    rw [a7, hXnextG]
    exact hGfreshG g' hg'
  · intro kk hk
    exact a16 kk hk
  · intro l hl
    exact a17 l hl
  · show (stF.kc.groups.map (fun x => x.id)).Nodup
    rw [a5, hXgroups]
    exact hGnodup
  · intro r' hr' hguard
    rw [a1, hXprojects] at hr'
    rcases hrows r' hr' with ⟨hr0mem, hrne⟩ | ⟨hid, hname, hkey⟩
    · have hguard' : ∀ q ∈ p :: todo', r'.id ≠ q.id := by
        intro q hq
        rcases List.mem_cons.mp hq with hqp | ht
        · rw [hqp]
          exact hrne
        · exact hguard q ht
      have hD := hdone r' hr0mem hguard'
      refine Done_step_preserved p r' st stF hr0mem hpmem hdist hclean hrne
        (a3.trans hXpu) (a2.trans hXusersD) ?_ ?_ ?_ ?_ ?_ hD
      · intro n hn
        rw [a5, hXgroups]
        exact hGother n hn
      · intro e u hu
        rcases a13 e u hu with h | h
        · rw [hXusers] at h
          exact Or.inl h
        · exact Or.inr h
      · intro m hm
        exact a8 m (hXmemmono m hm)
      · intro fp uid' h
        apply a12 fp uid'
        rw [fpLookup_congr st.db stX.db hXkeys hXlinks]
        exact h
      · intro i u h
        apply a14 i u
        rw [hXusers]
        exact h
    · refine Done_established p r' g k stX stF hid hname hkey ?_ hGstable a3 a2
        hestX a8 a13 ?_ ⟨uid, uB, hb1, hb2, hb3⟩
      · rw [a5, hXgroups]
        exact hGfind
      · intro e? he e he'
        rw [projectUserEmails_congr st.db stX.db hXpu hXusersD] at he
        obtain ⟨du, hdum, hdue⟩ := projectUserEmails_sourced st.db p.id e? he e he'
        exact hclean du hdum e hdue p hpmem

theorem processProject_establishes (env : Env) (henv : envOk env) (p : ProjectRow)
    (todo' : List ProjectRow) (st : St) (hinv : LoopInv (p :: todo') st) :
    ∃ st', processProject env p st = Except.ok st' ∧ LoopInv todo' st' := by
  obtain ⟨e1, e2, e3, e4, e5, e6, e7, e8, e9, e10, e11, e12⟩ := henv
  obtain ⟨hdist, htdistC, htmem, hsquat, hclean, ⟨hfG, hfU, hfK, hfL⟩, hnodup, hinteg,
    hdone⟩ := hinv
  have htd := List.pairwise_cons.mp htdistC
  have hpmem : p ∈ st.db.projects := htmem p (List.mem_cons_self p todo')
  obtain ⟨g, stG, hgs, hGdb, hGgen, hGusers, hGmem, hGnextU, hGfind, hGstable, hGother0,
    hGfreshG, hGnodup⟩ :=
    groupStep_envOk env p (logLine st ("Processing " ++ p.name)) (e1 _) e2 e3 hfG hnodup
  have hGdb' : stG.db = st.db := hGdb
  have hGusers' : stG.kc.users = st.kc.users := hGusers
  have hGmem' : stG.kc.memberships = st.kc.memberships := hGmem
  have hGnextU' : stG.kc.nextUserId = st.kc.nextUserId := hGnextU
  have hGother : ∀ n, n ≠ projectGroupNameOf p →
      stG.kc.groups.find? (fun x => x.name == n) =
        st.kc.groups.find? (fun x => x.name == n) := hGother0
  obtain ⟨st1, hop, hest0⟩ := ownerPhase_establishes env g e4 e5
    (projectUserEmails stG.db p.id) stG
  obtain ⟨o1, o2, o3, o4, o5, o6, _, o8⟩ := ownerPhase_ok env (some g) _ stG st1 hop
  have hdb1 : st1.db = st.db := o1.trans hGdb'
  have husers1 : st1.kc.users = st.kc.users := o2.trans hGusers'
  have hgroups1 : st1.kc.groups = stG.kc.groups := o3
  have hnextU1 : st1.kc.nextUserId = st.kc.nextUserId := o5.trans hGnextU'
  have hnextG1 : st1.kc.nextGroupId = stG.kc.nextGroupId := o6
  have hmem1 : ∀ m ∈ st.kc.memberships, m ∈ st1.kc.memberships := by
    intro m hm
    apply o8
    rw [hGmem']
    exact hm
  have hdbp : st1.db.projects = st.db.projects := congrArg DB.projects hdb1
  have hdbu : st1.db.users = st.db.users := congrArg DB.users hdb1
  have hdbpu : st1.db.projectUsers = st.db.projectUsers := congrArg DB.projectUsers hdb1
  have hdbk : st1.db.sshKeys = st.db.sshKeys := congrArg DB.sshKeys hdb1
  have hdbl : st1.db.userSshKeys = st.db.userSshKeys := congrArg DB.userSshKeys hdb1
  have hdbn : st1.db.nextSshKeyId = st.db.nextSshKeyId := congrArg DB.nextSshKeyId hdb1
  have hestS : ∀ e? ∈ projectUserEmails st.db p.id, ∀ e, e? = some e → ∀ u,
      st.kc.users.find? (fun v => v.username == e) = some u →
      (u.id, g.id, Role.owner) ∈ st1.kc.memberships := by
    intro e? he e he' u hu
    refine hest0 e? ?_ e he' u ?_
    · rw [projectUserEmails_congr st.db stG.db (congrArg DB.projectUsers hGdb')
        (congrArg DB.users hGdb')]
      exact he
    · rw [hGusers']
      exact hu
  cases hpkc : p.privateKey with
  | none =>
    unfold processProject
    rw [hgs]
    dsimp only
    simp only [e8 p.id, Bool.false_eq_true, if_false]
    rw [hop]
    dsimp only
    rw [hpkc, resolveKeyPair_gen env st1 (none : Option PrivText) rfl]
    dsimp only
    rw [if_neg (fun hc : jsTruthy (none : Option PrivText) = true => Bool.noConfusion hc)]
    simp only [e9 p.id, Bool.false_eq_true, if_false]
    refine finishIAG env p todo' st stG
      { st1 with genCounter := st1.genCounter + 1, db := { st1.db with projects := writeBackRows st1.db.projects p.id (serializePriv (generatePrivateKeyEd25519 env st1.genCounter)) } }
      g (generatePrivateKeyEd25519 env st1.genCounter)
      (writeBackRows st.db.projects p.id
        (serializePriv (generatePrivateKeyEd25519 env st1.genCounter)))
      e5 e6 e7 e10 e11 e12 hdist htd.2 htd.1 hpmem hsquat hclean hfU hfK hfL hinteg hdone
      hGfind hGstable hGother hGfreshG hGnodup
      husers1 hnextU1 hgroups1 hnextG1 ?_
      hdbu hdbpu hdbk
      hdbl hdbn
      hmem1 hestS ?_ ?_
      (projDistinct_writeBack st.db.projects p.id _ hdist) ?_
    · show writeBackRows st1.db.projects p.id
          (serializePriv (generatePrivateKeyEd25519 env st1.genCounter)) =
        writeBackRows st.db.projects p.id
          (serializePriv (generatePrivateKeyEd25519 env st1.genCounter))
      rw [hdbp]
    · intro r' hr'
      obtain ⟨r0, hr0, heq⟩ := writeBack_mem_elim st.db.projects p.id _ r' hr'
      by_cases hrid : r0.id = p.id
      · right
        have hr0p : r0 = p := proj_eq_of_mem_id st.db.projects hdist r0 p hr0 hpmem hrid
        rw [heq, wbFn_of_eq _ _ _ hrid, hr0p]
        exact ⟨rfl, rfl, rfl⟩
      · left
        rw [heq, wbFn_of_ne _ _ _ hrid]
        exact ⟨hr0, hrid⟩
    · intro q hq
      exact writeBack_mem_of_ne st.db.projects p.id _ q
        (htmem q (List.mem_cons_of_mem p hq)) (fun he => (htd.1 q hq).1 he.symm)
    · intro du hdum e hdue q hq
      obtain ⟨r0, hr0, heq⟩ := writeBack_mem_elim st.db.projects p.id _ q hq
      rw [heq, wbFn_name]
      exact hclean du hdum e hdue r0 hr0
  | some t =>
    cases t with
    | malformed s =>
      by_cases hs : s = ""
      · subst hs
        unfold processProject
        rw [hgs]
        dsimp only
        simp only [e8 p.id, Bool.false_eq_true, if_false]
        rw [hop]
        dsimp only
        rw [hpkc, resolveKeyPair_gen env st1 (some (PrivText.malformed "")) rfl]
        dsimp only
        rw [if_neg (fun hc : jsTruthy (some (PrivText.malformed "")) = true =>
          Bool.noConfusion hc)]
        simp only [e9 p.id, Bool.false_eq_true, if_false]
        refine finishIAG env p todo' st stG
          { st1 with genCounter := st1.genCounter + 1, db := { st1.db with projects := writeBackRows st1.db.projects p.id (serializePriv (generatePrivateKeyEd25519 env st1.genCounter)) } }
          g (generatePrivateKeyEd25519 env st1.genCounter)
          (writeBackRows st.db.projects p.id
            (serializePriv (generatePrivateKeyEd25519 env st1.genCounter)))
          e5 e6 e7 e10 e11 e12 hdist htd.2 htd.1 hpmem hsquat hclean hfU hfK hfL hinteg
          hdone hGfind hGstable hGother hGfreshG hGnodup
          husers1 hnextU1 hgroups1 hnextG1 ?_
          hdbu hdbpu
          hdbk hdbl
          hdbn
          hmem1 hestS ?_ ?_
          (projDistinct_writeBack st.db.projects p.id _ hdist) ?_
        · show writeBackRows st1.db.projects p.id
              (serializePriv (generatePrivateKeyEd25519 env st1.genCounter)) =
            writeBackRows st.db.projects p.id
              (serializePriv (generatePrivateKeyEd25519 env st1.genCounter))
          rw [hdbp]
        · intro r' hr'
          obtain ⟨r0, hr0, heq⟩ := writeBack_mem_elim st.db.projects p.id _ r' hr'
          by_cases hrid : r0.id = p.id
          · right
            have hr0p : r0 = p := proj_eq_of_mem_id st.db.projects hdist r0 p hr0 hpmem hrid
            rw [heq, wbFn_of_eq _ _ _ hrid, hr0p]
            exact ⟨rfl, rfl, rfl⟩
          · left
            rw [heq, wbFn_of_ne _ _ _ hrid]
            exact ⟨hr0, hrid⟩
        · intro q hq
          exact writeBack_mem_of_ne st.db.projects p.id _ q
            (htmem q (List.mem_cons_of_mem p hq)) (fun he => (htd.1 q hq).1 he.symm)
        · intro du hdum e hdue q hq
          obtain ⟨r0, hr0, heq⟩ := writeBack_mem_elim st.db.projects p.id _ q hq
          rw [heq, wbFn_name]
          exact hclean du hdum e hdue r0 hr0
      · have hInv1 : LoopInv todo' st1 := by
          refine ⟨?_, htd.2, ?_, ?_, ?_, ⟨?_, ?_, ?_, ?_⟩, ?_, ?_, ?_⟩
          · show projDistinct st1.db.projects
            rw [hdb1]
            exact hdist
          · intro q hq
            show q ∈ st1.db.projects
            rw [hdb1]
            exact htmem q (List.mem_cons_of_mem p hq)
          · intro u hu q hq
            rw [husers1] at hu
            exact hsquat u hu q (List.mem_cons_of_mem p hq)
          · show emailsClean st1.db.users st1.db.projects
            rw [hdb1]
            exact hclean
          · intro g' hg'
            rw [hgroups1] at hg'
            rw [hnextG1]
            exact hGfreshG g' hg'
          · intro u hu
            rw [husers1] at hu
            rw [hnextU1]
            exact hfU u hu
          · intro kk hk
            rw [hdbk] at hk
            rw [hdbn]
            exact hfK kk hk
          · intro l hl
            rw [hdbl] at hl
            rw [hdbn]
            exact hfL l hl
          · show (st1.kc.groups.map (fun x => x.id)).Nodup
            rw [hgroups1]
            exact hGnodup
          · intro l hl
            rw [hdbl] at hl
            obtain ⟨u, hum, hid⟩ := hinteg l hl
            refine ⟨u, ?_, hid⟩
            rw [husers1]
            exact hum
          · intro r hr hguard
            rw [hdbp] at hr
            by_cases hrid : r.id = p.id
            · have hre : r = p := proj_eq_of_mem_id st.db.projects hdist r p hr hpmem hrid
              rw [hre]
              refine ⟨g, ?_, hGstable, ?_, Or.inl ⟨s, hpkc, hs⟩⟩
              · show st1.kc.groups.find? (fun x => x.name == projectGroupNameOf p) = some g
                rw [hgroups1]
                exact hGfind
              · intro e? he e he' u hu
                rw [projectUserEmails_congr st.db st1.db hdbpu
                  hdbu] at he
                rw [husers1] at hu
                exact hestS e? he e he' u hu
            · have hguard' : ∀ q ∈ p :: todo', r.id ≠ q.id := by
                intro q hq
                rcases List.mem_cons.mp hq with hqp | ht
                · rw [hqp]
                  exact hrid
                · exact hguard q ht
              refine Done_step_preserved p r st st1 hr hpmem hdist hclean hrid
                hdbpu hdbu ?_ ?_ hmem1 ?_ ?_
                (hdone r hr hguard')
              · intro n hn
                rw [hgroups1]
                exact hGother n hn
              · intro e u hu
                rw [husers1] at hu
                exact Or.inl hu
              · intro fp uid h
                rw [fpLookup_congr st.db st1.db hdbk
                  hdbl]
                exact h
              · intro i u h
                rw [husers1]
                exact h
        unfold processProject
        rw [hgs]
        dsimp only
        simp only [e8 p.id, Bool.false_eq_true, if_false]
        rw [hop]
        dsimp only
        rw [hpkc, resolveKeyPair_parse_malformed env st1 s hs]
        dsimp only
        exact ⟨_, rfl, hInv1⟩
    | wellFormed k =>
      unfold processProject
      rw [hgs]
      dsimp only
      simp only [e8 p.id, Bool.false_eq_true, if_false]
      rw [hop]
      dsimp only
      rw [hpkc, resolveKeyPair_parse_wellFormed env st1 k]
      dsimp only
      rw [if_pos (show jsTruthy (some (PrivText.wellFormed k)) = true from rfl)]
      refine finishIAG env p todo' st stG st1 g k st.db.projects
        e5 e6 e7 e10 e11 e12 hdist htd.2 htd.1 hpmem hsquat hclean hfU hfK hfL hinteg hdone
        hGfind hGstable hGother hGfreshG hGnodup
        husers1 hnextU1 hgroups1 hnextG1 hdbp
        hdbu hdbpu hdbk
        hdbl hdbn
        hmem1 hestS ?_ ?_ hdist hclean
      · intro r' hr'
        by_cases hrid : r'.id = p.id
        · right
          have hr'p : r' = p := proj_eq_of_mem_id st.db.projects hdist r' p hr' hpmem hrid
          refine ⟨hrid, ?_, ?_⟩
          · rw [hr'p]
          · rw [hr'p]
            exact hpkc
        · exact Or.inl ⟨hr', hrid⟩
      · intro q hq
        exact htmem q (List.mem_cons_of_mem p hq)

def bfFn (db : DB) (p : ProjectRow) : ProjectRow :=
  if p.privateKey = none then
    match db.customers.find? (fun c => c.id == p.customer) with
    | some c => { p with privateKey := c.privateKey }
    | none => p
  else p

theorem backfill_eq_map (db : DB) :
    (backfillCustomerKeys db).projects = db.projects.map (bfFn db) := rfl

theorem bfFn_name (db : DB) (p : ProjectRow) : (bfFn db p).name = p.name := by
  unfold bfFn
  by_cases h : p.privateKey = none
  · rw [if_pos h]
    cases db.customers.find? (fun c => c.id == p.customer) <;> rfl
  · rw [if_neg h]

theorem bfFn_id (db : DB) (p : ProjectRow) : (bfFn db p).id = p.id := by
  unfold bfFn
  by_cases h : p.privateKey = none
  · rw [if_pos h]
    cases db.customers.find? (fun c => c.id == p.customer) <;> rfl
  · rw [if_neg h]

theorem projDistinct_backfill (db : DB) (h : projDistinct db.projects) :
    projDistinct (db.projects.map (bfFn db)) := by
  unfold projDistinct at h ⊢
  rw [List.pairwise_map]
  exact h.imp (fun hab => ⟨by rw [bfFn_id, bfFn_id]; exact hab.1,
    by rw [bfFn_name, bfFn_name]; exact hab.2⟩)

theorem runLoop_establishes (env : Env) (henv : envOk env) :
    ∀ (todo : List ProjectRow) (st : St), LoopInv todo st →
      ∃ st', runLoop env todo st = Except.ok st' ∧ LoopInv [] st' := by
  intro todo
  induction todo with
  | nil => exact fun st h => ⟨st, rfl, h⟩
  | cons p ps ih =>
    intro st h
    obtain ⟨st1, hp, hinv1⟩ := processProject_establishes env henv p ps st h
    obtain ⟨st2, hr2, hinv2⟩ := ih st1 hinv1
    refine ⟨st2, ?_, hinv2⟩
    unfold runLoop
    rw [hp]
    exact hr2

theorem runMigration_establishes (env : Env) (st0 : St) (henv : envOk env) (hwf : WF st0) :
    ∃ st1, runMigration env st0 = Except.ok st1 ∧ groupIdsNodup st1 ∧
      ∀ r ∈ st1.db.projects, Done st1 r := by
  obtain ⟨hdist, hsquat, hclean, hfresh, hnodup, hinteg⟩ := hwf
  have hInv : LoopInv (backfillCustomerKeys st0.db).projects
      { st0 with db := backfillCustomerKeys st0.db } := by
    refine ⟨?_, ?_, fun q hq => hq, ?_, ?_, hfresh, hnodup, hinteg,
      fun r hr hg => absurd rfl (hg r hr)⟩
    · exact projDistinct_backfill st0.db hdist
    · exact projDistinct_backfill st0.db hdist
    · intro u hu q hq
      have hq2 : q ∈ st0.db.projects.map (bfFn st0.db) := hq
      obtain ⟨r0, hr0, heq⟩ := List.mem_map.mp hq2
      rw [← heq, bfFn_name]
      exact hsquat u hu r0 hr0
    · intro du hdum e hdue q hq
      have hq2 : q ∈ st0.db.projects.map (bfFn st0.db) := hq
      obtain ⟨r0, hr0, heq⟩ := List.mem_map.mp hq2
      rw [← heq, bfFn_name]
      exact hclean du hdum e hdue r0 hr0
  obtain ⟨stL, hrun, hinvL⟩ := runLoop_establishes env henv _ _ hInv
  obtain ⟨_, _, _, _, _, _, hnodupL, _, hdoneL⟩ := hinvL
  refine ⟨logLine stL "Migration completed", ?_, hnodupL, ?_⟩
  · unfold runMigration
    dsimp only
    rw [hrun]
  · intro r hr
    exact Done_transport stL (logLine stL "Migration completed") rfl rfl r
      (hdoneL r hr (fun q hq => absurd hq (List.not_mem_nil q)))

/-- C1 (amended): on well-formed initial data — pairwise-distinct project ids
and names, no pre-existing identity username or stored relational email of the
synthetic default-user@<project-name> form, fresh identity-provider ids,
distinct group ids, and fingerprint links that refer to existing identities —
running the migration a second time over the state a successful first run
produced changes neither the relational store nor the identity provider. -/
theorem c1_idempotent_on_wellformed_data (env : Env) (st0 st1 : St)
    (henv : envOk env) (hwf : WF st0)
    (h1 : runMigration env st0 = Except.ok st1) :
    ∃ st2, runMigration env st1 = Except.ok st2 ∧ st2.db = st1.db ∧ st2.kc = st1.kc := by
  obtain ⟨st1', hrun', hnodup', hdone'⟩ := runMigration_establishes env st0 henv hwf
  have hs : st1 = st1' := Except.ok.inj (h1.symm.trans hrun')
  subst hs
  exact runMigration_noop env st1 henv hnodup' hdone'

/-- Input for the C1 witness: one project without a stored key, empty stores
otherwise. -/
def c1WSt : St :=
  { db := { projects := [{ id := 1, name := "alpha", customer := 0, privateKey := none }],
            customers := [], users := [], projectUsers := [],
            sshKeys := [], userSshKeys := [], nextSshKeyId := 1 },
    kc := { groups := [], users := [], memberships := [], nextGroupId := 1, nextUserId := 1 },
    genCounter := 0, log := [] }

def c1Res : St := okOr (runMigration okEnv c1WSt) c1WSt

/-- Witness for C1: on the concrete well-formed input the first run succeeds
and the second run reproduces its stores exactly. -/
theorem c1_idempotent_on_wellformed_data_witness :
    runMigration okEnv c1WSt = Except.ok c1Res ∧
    ∃ st2, runMigration okEnv c1Res = Except.ok st2 ∧ st2.db = c1Res.db ∧ st2.kc = c1Res.kc :=
  ⟨by decide, c1_idempotent_on_wellformed_data okEnv c1WSt c1Res
    ⟨fun _ => rfl, fun _ => rfl, fun _ => rfl, fun _ => rfl, fun _ _ _ => rfl, fun _ => rfl,
     fun _ => rfl, fun _ => rfl, fun _ => rfl, fun _ => rfl, fun _ => rfl, fun _ _ => rfl⟩
    (by unfold WF projDistinct noSquat emailsClean freshIds groupIdsNodup linkIntegrity
        decide)
    (by decide)⟩

end Lagoon
